import Mathlib

/-!
Verification of the better-prompts prompt-enhancement core.

This file gives a shallow embedding, in Lean, of the rule-based prompt
enhancement engine (`RuleEngine`), the template catalog
(`PROMPT_TEMPLATES`), the AI enhancement orchestrator (`AIEnhancer`) and
the detector cache (`LLMDetector`) of the better-prompts sources, and
proves or refutes the stated properties of the specification against it.

Strings are modelled through their character lists (`String.data`), with
JavaScript string operations (`includes`, `replace` with a string
pattern, `replace` with the word-boundary / anchored regexes actually
used by the source, `substring`, `toLowerCase`) re-implemented
faithfully on `List Char`.  Network calls of the AI orchestrator are
modelled by oracle values describing each call's outcome, and every
function that performs calls additionally returns the list of calls it
issued, so that "issues no network call" is an equation on that list.
Failure propagation (`throw` / `try` / `catch`) is modelled with
`Except`; the orchestrator's public entry point returns a plain result,
which embeds "never raises to the caller".
-/

set_option maxRecDepth 4000

namespace BetterPrompts

/-- JavaScript `String.prototype.includes` on character lists:
`containsL l pat` is true iff `pat` occurs as a contiguous substring of `l`. -/
def containsL (l pat : List Char) : Bool :=
  match l with
  | [] => pat.isEmpty
  | _ :: cs => pat.isPrefixOf l || containsL cs pat

/-- JavaScript `String.prototype.replace` with a *string* pattern:
replaces only the first occurrence of `pat` by `rep`. -/
def replaceFirstL (pat rep : List Char) : List Char → List Char
  | [] => []
  | c :: cs =>
    if pat.isPrefixOf (c :: cs) then rep ++ (c :: cs).drop pat.length
    else c :: replaceFirstL pat rep cs

/-- Fuel-driven scan for `replaceAllL`; the fuel (initially the list
length, which always suffices) makes the recursion structural, so that
the kernel can evaluate it on concrete inputs. -/
def replaceAllFuel (pat rep : List Char) : Nat → List Char → List Char
  | 0, l => l
  | fuel + 1, l =>
    match l with
    | [] => []
    | c :: cs =>
      if pat.isPrefixOf (c :: cs) ∧ pat ≠ [] then
        rep ++ replaceAllFuel pat rep fuel ((c :: cs).drop pat.length)
      else c :: replaceAllFuel pat rep fuel cs

/-- Replace every (non-overlapping, left-to-right, without re-scanning the
inserted replacement) occurrence of `pat` by `rep`.  Used for the claim-side
reading "every placeholder is substituted". -/
def replaceAllL (pat rep l : List Char) : List Char :=
  replaceAllFuel pat rep l.length l

/-- JavaScript `Array.prototype.join(sep)` for a list of strings. -/
def joinSep (sep : List Char) : List (List Char) → List Char
  | [] => []
  | [x] => x
  | x :: xs => x ++ sep ++ joinSep sep xs

/-- First-occurrence-preserving deduplication, the behaviour of
`[...new Set(xs)]` in JavaScript. -/
def dedupFirst {α : Type} [DecidableEq α] (l : List α) : List α :=
  go [] l
where
  go (seen : List α) : List α → List α
    | [] => []
    | x :: xs => if x ∈ seen then go seen xs else x :: go (x :: seen) xs

/-- ASCII lower-casing of a character list (`String.prototype.toLowerCase`
restricted to the ASCII range, which covers every keyword of the engine). -/
def lowerL (l : List Char) : List Char := l.map Char.toLower

/-- `includes` on strings. -/
def containsS (s pat : String) : Bool := containsL s.data pat.data

/-- `replace` (first occurrence) on strings. -/
def replaceFirstS (s pat rep : String) : String :=
  ⟨replaceFirstL pat.data rep.data s.data⟩

/-- claim-side replace-all on strings. -/
def replaceAllS (s pat rep : String) : String :=
  ⟨replaceAllL pat.data rep.data s.data⟩

/-- JavaScript `substring(0, n)`. -/
def takeS (n : Nat) (s : String) : String := ⟨s.data.take n⟩

/-- String length as a character count (`.length`; the engine's data is
ASCII, where UTF-16 units and characters coincide). -/
def lenS (s : String) : Nat := s.data.length

/-- `toLowerCase` on strings. -/
def lowerS (s : String) : String := ⟨lowerL s.data⟩

/-- The apostrophe character, kept out of string literals. -/
def apoc : Char := Char.ofNat 39

/-- The apostrophe as a one-character string. -/
def apoS : String := String.mk [apoc]

/-! ## Data model (`src/types.ts`) -/

/-- `TaskIntent`: the eight task intents, in their source enumeration
order. -/
inductive TaskIntent where
  | fix | add | change | explain | test | review | improve | document
deriving DecidableEq, Repr

/-- `PromptContext`: optional editor context attributes. -/
structure PromptContext where
  fileName : Option String
  filePath : Option String
  language : Option String
  selectedCode : Option String
  projectStructure : Option String
  gitStatus : Option String
  relatedFiles : Option (List String)
deriving DecidableEq, Repr

/-- The `includeContext` flag set of a `PromptRequest`. -/
structure IncludeContext where
  file : Bool
  selection : Bool
  project : Bool
  git : Bool
deriving DecidableEq, Repr

/-- `PromptRequest`. -/
structure PromptRequest where
  intent : TaskIntent
  userInput : String
  context : PromptContext
  includeContext : IncludeContext
deriving DecidableEq, Repr

/-- `EnhancedPrompt`. -/
structure EnhancedPrompt where
  prompt : String
  preview : String
  wasAiEnhanced : Bool
deriving DecidableEq, Repr

/-- `PromptTemplate`. -/
structure PromptTemplate where
  id : String
  templateName : String
  intent : TaskIntent
  template : String
  description : String
  placeholders : List String
deriving DecidableEq, Repr

/-- `RuleMapping`. -/
structure RuleMapping where
  keywords : List String
  expansion : String
  technicalTerms : List String
deriving DecidableEq, Repr

/-! ## Template catalog (`src/templates/promptTemplates.ts`) -/

/-- `PROMPT_TEMPLATES`, in declaration order. -/
def PROMPT_TEMPLATES : List PromptTemplate := [
  ⟨"fix-bug", "Fix Bug", .fix,
    "Fix the bug in this code. The issue is: {issue}\n\n{context}\n\nPlease:\n1. Identify the root cause of the bug\n2. Provide a corrected implementation\n3. Explain what was wrong and why the fix works",
    "Debug and fix issues in code", ["issue"]⟩,
  ⟨"fix-error", "Fix Error", .fix,
    "I" ++ apoS ++ "m getting this error: {error}\n\n{context}\n\nPlease help me:\n1. Understand what" ++ apoS ++ "s causing this error\n2. Fix the code to resolve it\n3. Prevent similar errors in the future",
    "Fix specific error messages", ["error"]⟩,
  ⟨"add-feature", "Add Feature", .add,
    "Add the following feature: {feature}\n\n{context}\n\nRequirements:\n- Follow existing code patterns and conventions\n- Include proper error handling\n- Make it production-ready",
    "Implement new functionality", ["feature"]⟩,
  ⟨"add-function", "Add Function", .add,
    "Create a function that: {description}\n\n{context}\n\nPlease:\n- Use appropriate parameter types\n- Include input validation\n- Handle edge cases\n- Add JSDoc/docstring comments",
    "Create a new function", ["description"]⟩,
  ⟨"change-refactor", "Refactor Code", .change,
    "Refactor this code to: {goal}\n\n{context}\n\nGuidelines:\n- Maintain the same functionality\n- Improve code quality and readability\n- Follow best practices for this language",
    "Improve code structure", ["goal"]⟩,
  ⟨"change-update", "Update Code", .change,
    "Update this code: {changes}\n\n{context}\n\nPlease ensure:\n- Backward compatibility where possible\n- All related code is updated consistently\n- No functionality is broken",
    "Modify existing code", ["changes"]⟩,
  ⟨"explain-code", "Explain Code", .explain,
    "Explain this code in detail:\n\n{context}\n\nPlease cover:\n1. What this code does (high-level overview)\n2. How it works (step-by-step breakdown)\n3. Key concepts or patterns used\n4. Any potential issues or improvements",
    "Get detailed code explanation", []⟩,
  ⟨"explain-simple", "Explain Simply", .explain,
    "Explain this code in simple terms that a beginner can understand:\n\n{context}\n\nUse:\n- Simple language, avoid jargon\n- Analogies where helpful\n- Step-by-step breakdown",
    "Get beginner-friendly explanation", []⟩,
  ⟨"test-unit", "Write Unit Tests", .test,
    "Write unit tests for this code:\n\n{context}\n\nInclude tests for:\n- Normal/expected inputs\n- Edge cases\n- Error conditions\n- Boundary values\n\nUse the testing framework appropriate for this language/project.",
    "Generate unit tests", []⟩,
  ⟨"test-specific", "Test Specific Scenario", .test,
    "Write tests for the following scenario: {scenario}\n\n{context}\n\nMake sure to cover:\n- The main scenario\n- Related edge cases\n- Failure modes",
    "Test specific functionality", ["scenario"]⟩,
  ⟨"review-code", "Code Review", .review,
    "Review this code for:\n\n{context}\n\nPlease check for:\n1. Bugs or logic errors\n2. Security vulnerabilities\n3. Performance issues\n4. Code style and best practices\n5. Suggestions for improvement",
    "Get comprehensive code review", []⟩,
  ⟨"review-security", "Security Review", .review,
    "Perform a security review of this code:\n\n{context}\n\nCheck for:\n- Input validation issues\n- Injection vulnerabilities (SQL, XSS, etc.)\n- Authentication/authorization flaws\n- Data exposure risks\n- Other OWASP Top 10 vulnerabilities",
    "Focus on security issues", []⟩,
  ⟨"improve-performance", "Improve Performance", .improve,
    "Optimize this code for better performance:\n\n{context}\n\nFocus on:\n- Reducing time complexity\n- Minimizing memory usage\n- Eliminating unnecessary operations\n- Using more efficient algorithms/data structures",
    "Optimize code performance", []⟩,
  ⟨"improve-readability", "Improve Readability", .improve,
    "Improve the readability of this code:\n\n{context}\n\nPlease:\n- Use clearer variable/function names\n- Break down complex logic\n- Add helpful comments where needed\n- Follow language conventions",
    "Make code more readable", []⟩,
  ⟨"document-code", "Add Documentation", .document,
    "Add documentation to this code:\n\n{context}\n\nInclude:\n- Function/method documentation (JSDoc, docstrings, etc.)\n- Inline comments for complex logic\n- Usage examples where helpful",
    "Generate code documentation", []⟩,
  ⟨"document-readme", "Write README", .document,
    "Write a README for this code/project:\n\n{context}\n\nInclude:\n- Project description\n- Installation instructions\n- Usage examples\n- API documentation (if applicable)\n- Contributing guidelines",
    "Create README documentation", []⟩]

/-- `getTemplatesByIntent`. -/
def getTemplatesByIntent (intent : TaskIntent) : List PromptTemplate :=
  PROMPT_TEMPLATES.filter (fun t => t.intent == intent)

/-- `getTemplateById`. -/
def getTemplateById (id : String) : Option PromptTemplate :=
  PROMPT_TEMPLATES.find? (fun t => t.id == id)

/-! ## Rule engine data (`src/services/ruleEngine.ts`) -/

/-- `INTENT_KEYWORDS`, as a list of pairs in the source object's insertion
order (the order `Object.entries` iterates). -/
def INTENT_KEYWORDS : List (TaskIntent × List String) := [
  (.fix, ["fix", "bug", "error", "broken", "not work", "doesnt work",
    "doesn" ++ apoS ++ "t work", "fail", "crash", "issue", "problem",
    "wrong", "debug", "repair", "solve"]),
  (.add, ["add", "create", "new", "implement", "make", "build", "write",
    "generate", "insert"]),
  (.change, ["change", "update", "modify", "edit", "refactor", "rename",
    "move", "replace", "convert", "transform"]),
  (.explain, ["explain", "what", "how", "why", "understand", "mean",
    "does this", "tell me", "describe", "clarify"]),
  (.test, ["test", "testing", "unit test", "spec", "coverage", "mock",
    "assert"]),
  (.review, ["review", "check", "audit", "inspect", "analyze", "evaluate",
    "assess"]),
  (.improve, ["improve", "optimize", "faster", "better", "performance",
    "speed", "efficient", "enhance", "upgrade", "clean"]),
  (.document, ["document", "docs", "readme", "comment", "jsdoc",
    "docstring", "documentation"])]

/-- `WORD_EXPANSIONS`, as key/expansion pairs in insertion order. -/
def WORD_EXPANSIONS : List (String × String) := [
  ("fix", "fix and debug"),
  ("broken", "not working correctly"),
  ("slow", "has performance issues and runs slowly"),
  ("fast", "optimized for better performance"),
  ("work", "function correctly"),
  ("not work", "is not functioning as expected"),
  ("doesnt work", "is not functioning as expected"),
  ("doesn" ++ apoS ++ "t work", "is not functioning as expected"),
  ("bad", "poorly structured or inefficient"),
  ("good", "well-structured and efficient"),
  ("ugly", "poorly formatted and hard to read"),
  ("clean", "well-organized and readable"),
  ("messy", "disorganized and hard to maintain"),
  ("make", "implement"),
  ("do", "implement"),
  ("want", "need to"),
  ("need", "require"),
  ("btn", "button"),
  ("func", "function"),
  ("var", "variable"),
  ("arr", "array"),
  ("obj", "object"),
  ("str", "string"),
  ("num", "number"),
  ("bool", "boolean"),
  ("db", "database"),
  ("api", "API endpoint"),
  ("auth", "authentication"),
  ("err", "error"),
  ("msg", "message"),
  ("req", "request"),
  ("res", "response"),
  ("param", "parameter"),
  ("arg", "argument"),
  ("props", "properties"),
  ("config", "configuration")]

/-- `TECHNICAL_ENHANCEMENTS`. -/
def TECHNICAL_ENHANCEMENTS : List RuleMapping := [
  ⟨["button", "click", "press"], "button click handler",
    ["onClick event", "event handler", "user interaction"]⟩,
  ⟨["form", "submit", "input"], "form submission",
    ["form validation", "input handling", "form state"]⟩,
  ⟨["login", "signin", "sign in"], "user authentication",
    ["authentication flow", "credentials", "session management"]⟩,
  ⟨["save", "store", "persist"], "data persistence",
    ["storage", "database operation", "state management"]⟩,
  ⟨["load", "fetch", "get data"], "data fetching",
    ["API call", "async operation", "data loading"]⟩,
  ⟨["show", "display", "render", "visible"], "UI rendering",
    ["component rendering", "visibility", "display logic"]⟩,
  ⟨["hide", "invisible", "remove"], "UI visibility",
    ["conditional rendering", "display state", "DOM manipulation"]⟩,
  ⟨["list", "array", "items", "loop"], "list/array handling",
    ["iteration", "array methods", "list rendering"]⟩,
  ⟨["error", "catch", "fail", "exception"], "error handling",
    ["try-catch", "error boundary", "exception handling"]⟩,
  ⟨["async", "await", "promise", "wait"], "asynchronous operation",
    ["Promise", "async/await", "asynchronous flow"]⟩,
  ⟨["style", "css", "color", "layout"], "styling",
    ["CSS", "styling", "layout"]⟩,
  ⟨["route", "page", "navigate", "url"], "routing/navigation",
    ["routing", "navigation", "URL handling"]⟩,
  ⟨["state", "update", "change value"], "state management",
    ["state update", "reactivity", "state management"]⟩,
  ⟨["type", "typescript", "interface"], "type definition",
    ["TypeScript", "type safety", "interface definition"]⟩]

/-! ## Regex building blocks

The engine uses five fixed regexes.  Their semantics on the disjoint
character classes involved (`\w`, `\s`, literal words) are deterministic,
and are implemented directly. -/

/-- JavaScript regex `\w`: ASCII letters, digits and underscore. -/
def wordChar (c : Char) : Bool := c.isAlpha || c.isDigit || c = '_'

/-- JavaScript regex `\s`, restricted to the ASCII range. -/
def jsWhitespace (c : Char) : Bool :=
  c = ' ' || c = '\t' || c = '\n' || c = '\x0b' || c = '\x0c' || c = '\r'

/-- Case-insensitive (ASCII) match of `pat` against the start of `l`. -/
def caselessPrefix (pat l : List Char) : Bool :=
  (lowerL pat).isPrefixOf (lowerL l)

/-- Left word-boundary test: the previous character (if any) is not a
word character.  (All expansion keys begin and end with word characters,
so `\b` at the key's ends reduces to this test.) -/
def leftBdOk : Option Char → Bool
  | none => true
  | some p => !wordChar p

/-- Right word-boundary test: the character following the match (if any)
is not a word character. -/
def rightBdOk (key l : List Char) : Bool :=
  match (l.drop key.length).head? with
  | none => true
  | some q => !wordChar q

/-- Global, case-insensitive, word-bounded replacement: the semantics of
`input.replace(new RegExp('\\b' + key + '\\b', 'gi'), rep)` for keys that
begin and end with word characters.  `prev` is the original character
just before the current scan position. -/
def replaceWordFuel (key rep : List Char) :
    Nat → Option Char → List Char → List Char
  | 0, _, l => l
  | _ + 1, _, [] => []
  | fuel + 1, prev, c :: cs =>
    if key ≠ [] ∧ caselessPrefix key (c :: cs) = true ∧
        leftBdOk prev = true ∧ rightBdOk key (c :: cs) = true then
      rep ++ replaceWordFuel key rep fuel ((c :: cs).get? (key.length - 1))
        ((c :: cs).drop key.length)
    else c :: replaceWordFuel key rep fuel (some c) cs

/-- Entry point: fuel equal to the list length always suffices, because
every step consumes at least one character. -/
def replaceWordAll (key rep : List Char) (prev : Option Char)
    (l : List Char) : List Char :=
  replaceWordFuel key rep l.length prev l

/-- Attempt of the regex `/(\w+)\s+not\s+work/gi` at the current position:
returns the captured word run and the remainder after the match. -/
def tryMatch1 (l : List Char) : Option (List Char × List Char) :=
  let w := l.takeWhile wordChar
  let r1 := l.dropWhile wordChar
  if w.isEmpty then none else
  let s1 := r1.takeWhile jsWhitespace
  let r2 := r1.dropWhile jsWhitespace
  if s1.isEmpty then none else
  if caselessPrefix ['n', 'o', 't'] r2 then
    let r3 := r2.drop 3
    let s2 := r3.takeWhile jsWhitespace
    let r4 := r3.dropWhile jsWhitespace
    if s2.isEmpty then none else
    if caselessPrefix ['w', 'o', 'r', 'k'] r4 then some (w, r4.drop 4)
    else none
  else none

/-- Fuel-driven scan for `rule1`; each step consumes at least one
character, so fuel equal to the list length suffices. -/
def rule1Fuel : Nat → List Char → List Char
  | 0, l => l
  | fuel + 1, l =>
    match l with
    | [] => []
    | c :: cs =>
      match tryMatch1 (c :: cs) with
      | some (w, rest) =>
        w ++ (" is not working correctly".data ++ rule1Fuel fuel rest)
      | none => c :: rule1Fuel fuel cs

/-- Rule `/(\w+)\s+not\s+work/gi → '$1 is not working correctly'`
(global: scanning continues after each replacement). -/
def rule1 (l : List Char) : List Char := rule1Fuel l.length l

/-- Largest number `j` of whitespace characters (at least one) the
backtracking `\s+` keeps so that `(.+)` can start on a non-newline
character: the position after `j` whitespace characters holds some
character other than `'\n'`. -/
def findJ (ws rest : List Char) : Option Nat :=
  ((List.range ws.length).map (fun k => ws.length - k)).find? (fun j =>
    match (ws.drop j ++ rest).head? with
    | some c => decide (c ≠ '\n')
    | none => false)

/-- Rules `/^key\s+(.+)/i → 'repPre$1'` (anchored, single replacement;
`.` does not match a newline, `\s+` backtracks). -/
def anchoredDotPlus (key repPre : List Char) (l : List Char) : List Char :=
  if caselessPrefix key l then
    let r := l.drop key.length
    let ws := r.takeWhile jsWhitespace
    let rest := r.dropWhile jsWhitespace
    if ws.isEmpty then l else
    match findJ ws rest with
    | none => l
    | some j => repPre ++ (ws.drop j ++ rest)
  else l

/-- Rule `/^make\s+(.+)/i → 'Implement $1'`. -/
def rule2 (l : List Char) : List Char :=
  anchoredDotPlus "make".data "Implement ".data l

/-- Rule `/^want\s+(.+)/i → 'I need $1'`. -/
def rule3 (l : List Char) : List Char :=
  anchoredDotPlus "want".data "I need ".data l

/-- Rule `/^how\s+(\w+)$/i → 'How does $1 work'`. -/
def rule4 (l : List Char) : List Char :=
  if caselessPrefix ['h', 'o', 'w'] l then
    let r := l.drop 3
    let ws := r.takeWhile jsWhitespace
    let rest := r.dropWhile jsWhitespace
    if !ws.isEmpty && !rest.isEmpty && rest.all wordChar then
      "How does ".data ++ rest ++ " work".data
    else l
  else l

/-- Rule `/([a-zA-Z])$/i → '$1.'`: append a period when the final
character is an ASCII letter. -/
def rule5 (l : List Char) : List Char :=
  match l.getLast? with
  | some c => if c.isAlpha then l ++ ['.'] else l
  | none => l

/-- `result.charAt(0).toUpperCase() + result.slice(1)`. -/
def capFirst : List Char → List Char
  | [] => []
  | c :: cs => c.toUpper :: cs

/-- Truthiness of an optional string (JavaScript: `undefined` and the
empty string are falsy). -/
def truthy : Option String → Bool
  | none => false
  | some s => !s.data.isEmpty

/-! ## The rule engine (`RuleEngine`, `src/services/ruleEngine.ts`) -/

namespace RuleEngine

/-- `RuleEngine.detectIntent`: length-weighted keyword scoring over the
lower-cased input; strict improvement updates the best intent, default
`fix`. -/
def detectIntent (input : String) : TaskIntent :=
  let lowerInput := lowerL input.data
  (INTENT_KEYWORDS.foldl
    (fun (best : TaskIntent × Nat) p =>
      let score := p.2.foldl
        (fun s kw => if containsL lowerInput kw.data then s + kw.data.length else s) 0
      if best.2 < score then (p.1, score) else best)
    (TaskIntent.fix, 0)).1

/-- Stable insertion of an entry into a length-descending entry list:
the entry goes in front of the first entry whose key is not longer.
(JavaScript's `Array.prototype.sort` is specified stable; all stable
sorts of the same comparator agree, and insertion sort keeps the kernel
able to evaluate the result.) -/
def insertByLen (x : String × String) :
    List (String × String) → List (String × String)
  | [] => [x]
  | y :: ys =>
    if y.1.data.length ≤ x.1.data.length then x :: y :: ys
    else y :: insertByLen x ys

/-- Stable sort by key length, descending. -/
def sortByLenDesc : List (String × String) → List (String × String)
  | [] => []
  | x :: xs => insertByLen x (sortByLenDesc xs)

/-- The stable length-descending reordering of `WORD_EXPANSIONS`
(`.sort((a, b) => b[0].length - a[0].length)`) that `expandWords`
performs before replacing. -/
def sortedExpansions : List (String × String) :=
  sortByLenDesc WORD_EXPANSIONS

/-- `RuleEngine.expandWords`. -/
def expandWords (input : String) : String :=
  ⟨sortedExpansions.foldl
    (fun res p => replaceWordAll p.1.data p.2.data none res) input.data⟩

/-- `RuleEngine.addTechnicalTerms`, returning the pair
`(enhanced, termsAdded)` of the source's result object. -/
def addTechnicalTerms (input : String) : String × List String :=
  let lowerInput := lowerL input.data
  let termsAdded := TECHNICAL_ENHANCEMENTS.foldl
    (fun acc m =>
      if m.keywords.any (fun kw => containsL lowerInput kw.data) then
        acc ++ m.technicalTerms
      else acc) []
  (input, dedupFirst termsAdded)

/-- `RuleEngine.improveStructure`: the five structure patterns in
sequence, then capitalisation of the first character. -/
def improveStructure (input : String) : String :=
  ⟨capFirst (rule5 (rule4 (rule3 (rule2 (rule1 input.data)))))⟩

/-- `RuleEngine.formatContext`. -/
def formatContext (request : PromptRequest) : String :=
  let parts : List String :=
    (if request.includeContext.file && truthy request.context.fileName then
      ("**File:** " ++ (request.context.fileName.getD "")) ::
        (if truthy request.context.language then
          ["**Language:** " ++ (request.context.language.getD "")] else [])
     else []) ++
    (if request.includeContext.selection && truthy request.context.selectedCode then
      ["\n**Code:**\n```" ++ (request.context.language.getD "") ++ "\n" ++
        (request.context.selectedCode.getD "") ++ "\n```"]
     else []) ++
    (if request.includeContext.project && truthy request.context.projectStructure then
      ["\n**Project Structure:**\n" ++ (request.context.projectStructure.getD "")]
     else []) ++
    (if request.includeContext.git && truthy request.context.gitStatus then
      ["\n**Git Status:**\n" ++ (request.context.gitStatus.getD "")]
     else [])
  ⟨joinSep "\n".data (parts.map String.data)⟩

/-- Step 5 of `RuleEngine.enhance`: the chained single-occurrence
placeholder substitutions on the chosen template, or the defensive
fallback concatenation when no template exists for the intent. -/
def fillTemplate (template? : Option PromptTemplate)
    (enhanced contextStr : String) : String :=
  match template? with
  | some template =>
    replaceFirstS (replaceFirstS (replaceFirstS (replaceFirstS (replaceFirstS
      (replaceFirstS (replaceFirstS (replaceFirstS template.template
        "{issue}" enhanced) "{error}" enhanced) "{feature}" enhanced)
        "{description}" enhanced) "{goal}" enhanced) "{changes}" enhanced)
        "{scenario}" enhanced) "{context}" contextStr
  | none => enhanced ++ "\n\n" ++ contextStr

/-- The `*Related concepts: ...*` line appended when any technical terms
were detected. -/
def hintSuffix (termsAdded : List String) : String :=
  if termsAdded.isEmpty then "" else
    "\n\n*Related concepts: " ++
      (⟨joinSep ", ".data (termsAdded.map String.data)⟩ : String) ++ "*"

/-- `RuleEngine.enhance`. -/
def enhance (request : PromptRequest) : EnhancedPrompt :=
  let enhanced := improveStructure (expandWords request.userInput)
  let termsAdded := (addTechnicalTerms request.userInput).2
  let templates := getTemplatesByIntent request.intent
  let contextStr := formatContext request
  let finalPrompt := fillTemplate templates.head? enhanced contextStr ++
    hintSuffix termsAdded
  let preview :=
    if 200 < lenS finalPrompt then takeS 200 finalPrompt ++ "..." else finalPrompt
  ⟨finalPrompt, preview, false⟩

/-- `RuleEngine.quickEnhance`. -/
def quickEnhance (simpleInput : String) (intent : TaskIntent)
    (context : PromptContext) : EnhancedPrompt :=
  enhance ⟨intent, simpleInput, context, ⟨true, true, false, false⟩⟩

end RuleEngine

/-! ## AI enhancement orchestrator (`src/services/aiEnhancer.ts`)

Network effects are modelled by an oracle `World` fixing the outcome of
each endpoint's call, and every call-performing function returns the
list of calls it issued.  `throw`/`catch` is modelled with `Except`. -/

/-- `LLMProvider` (src/types).  `continueDev` stands for the source's
`'continue'`, `claudeCode` for `'claude-code'`. -/
inductive LLMProvider where
  | claudeCode | cursor | copilot | continueDev | cody | manual | none
deriving DecidableEq, Repr

/-- `LLMDetectionResult` (src/types). -/
structure LLMDetectionResult where
  provider : LLMProvider
  available : Bool
  canEnhance : Bool
  displayName : String
deriving DecidableEq, Repr

/-- The configuration keys the orchestrator reads (with the source's
defaults applied by the configuration layer). -/
structure AIConfig where
  enhancementMode : String
  manualProvider : String
  apiKey : String
  ollamaEndpoint : String
  ollamaModel : String
deriving DecidableEq, Repr

/-- Outcome of a fetch of the local backend's `/api/tags`. -/
inductive TagsOutcome where
  | thrown
  | notOk
  | malformed
  | ok (models : Option (List String))
deriving DecidableEq, Repr

/-- Outcome of a generation call (`/api/generate`, Anthropic messages,
OpenAI chat): a transport error, a non-2xx status, a 2xx status with an
unparseable body, or a parsed body whose extracted text field is
`text`. -/
inductive GenOutcome where
  | thrown
  | notOk (status : Nat)
  | malformed
  | ok (text : Option String)
deriving DecidableEq, Repr

/-- The outcomes under which the generation call raises in the source
(transport error, non-2xx, malformed body). -/
def GenOutcome.isFail : GenOutcome → Bool
  | .ok _ => false
  | _ => true

/-- Oracle for one orchestrator invocation: the outcome of each endpoint
and the detector's result (the externally supplied coding-assistant
signal). -/
structure World where
  tags1 : TagsOutcome
  tags2 : TagsOutcome
  gen : GenOutcome
  anthropic : GenOutcome
  openai : GenOutcome
  detection : LLMDetectionResult
deriving DecidableEq, Repr

/-- Network calls, for the issued-calls trace. -/
inductive NetCall where
  | ollamaTags | ollamaGenerate | anthropicMessages | openaiChat
deriving DecidableEq, Repr

/-- A quote character for the response cleanup (`"` or `'`). -/
def isQuote (c : Char) : Bool := c = '"' || c = apoc

/-- `/^(Enhanced prompt:|Here's the enhanced prompt:|Output:)\s*/i → ''`:
strip one leading boilerplate alternative with its trailing whitespace. -/
def stripBoiler (l : List Char) : List Char :=
  let p1 := "Enhanced prompt:".data
  let p2 := ("Here" ++ apoS ++ "s the enhanced prompt:").data
  let p3 := "Output:".data
  if caselessPrefix p1 l then (l.drop p1.length).dropWhile jsWhitespace
  else if caselessPrefix p2 l then (l.drop p2.length).dropWhile jsWhitespace
  else if caselessPrefix p3 l then (l.drop p3.length).dropWhile jsWhitespace
  else l

/-- `/^["']|["']$/g → ''`: strip one leading and one trailing quote. -/
def stripQuotes (l : List Char) : List Char :=
  let l1 := match l with
    | c :: cs => if isQuote c then cs else l
    | [] => []
  match l1.getLast? with
  | some c => if isQuote c then l1.dropLast else l1
  | none => l1

/-- JavaScript `trim` (ASCII whitespace). -/
def trimL (l : List Char) : List Char :=
  ((l.dropWhile jsWhitespace).reverse.dropWhile jsWhitespace).reverse

/-- `AIEnhancer`'s private cached fields. -/
structure EnhancerState where
  ollamaAvailable : Option Bool
  ollamaModels : List String
deriving DecidableEq, Repr

namespace AIEnhancer

/-- The state of a freshly constructed `AIEnhancer`. -/
def initialState : EnhancerState := ⟨Option.none, []⟩

/-- `AIEnhancer.clearCache`. -/
def clearCache (_ : EnhancerState) : EnhancerState := ⟨Option.none, []⟩

/-- `callOllamaAPI`: on any failure the source logs and re-throws; on
success, extract `data.response`, default to the raw input, clean up and
trim. -/
def callOllamaAPI (w : World) (userInput : String) :
    Except Unit EnhancedPrompt × List NetCall :=
  match w.gen with
  | .thrown => (.error (), [.ollamaGenerate])
  | .notOk _ => (.error (), [.ollamaGenerate])
  | .malformed => (.error (), [.ollamaGenerate])
  | .ok t =>
    let base : List Char := match t with
      | Option.none => userInput.data
      | some s => if (trimL s.data).isEmpty then userInput.data else trimL s.data
    let enhanced : String := ⟨trimL (stripQuotes (stripBoiler base))⟩
    (.ok ⟨enhanced, takeS 200 enhanced, true⟩, [.ollamaGenerate])

/-- `AIEnhancer.checkOllama`: probes `/api/tags` (and, when reachable,
probes again for the model list), overwriting the cached fields on every
call.  When unreachable, the stale model list is returned. -/
def checkOllama (w : World) (st : EnhancerState) :
    (Bool × List String) × EnhancerState × List NetCall :=
  let available := match w.tags1 with
    | .thrown => false
    | .notOk => false
    | .malformed => true
    | .ok _ => true
  if available then
    let models := match w.tags2 with
      | .ok (some ms) => ms
      | _ => []
    ((true, models), ⟨some true, models⟩, [.ollamaTags, .ollamaTags])
  else
    ((false, st.ollamaModels), ⟨some false, st.ollamaModels⟩, [.ollamaTags])

/-- `enhanceWithManualAPI`.  The Ollama path re-raises; the keyed
provider paths catch their own failures (including the unknown-provider
`throw`) and degrade to the fallback. -/
def enhanceWithManualAPI (cfg : AIConfig) (w : World)
    (userInput fallback : String) : Except Unit EnhancedPrompt × List NetCall :=
  if cfg.manualProvider = "ollama" then
    callOllamaAPI w userInput
  else if cfg.apiKey = "" then
    (.ok ⟨fallback, takeS 200 fallback, false⟩, [])
  else if cfg.manualProvider = "anthropic" then
    match w.anthropic with
    | .ok t =>
      let enhanced := match t with
        | some s => if s.data.isEmpty then userInput else s
        | Option.none => userInput
      (.ok ⟨enhanced, takeS 200 enhanced, true⟩, [.anthropicMessages])
    | _ => (.ok ⟨fallback, takeS 200 fallback, false⟩, [.anthropicMessages])
  else if cfg.manualProvider = "openai" then
    match w.openai with
    | .ok t =>
      let enhanced := match t with
        | some s => if s.data.isEmpty then userInput else s
        | Option.none => userInput
      (.ok ⟨enhanced, takeS 200 enhanced, true⟩, [.openaiChat])
    | _ => (.ok ⟨fallback, takeS 200 fallback, false⟩, [.openaiChat])
  else
    (.ok ⟨fallback, takeS 200 fallback, false⟩, [])

/-- `enhanceWithProvider`. -/
def enhanceWithProvider (cfg : AIConfig) (w : World) (provider : LLMProvider)
    (userInput fallback : String) : Except Unit EnhancedPrompt × List NetCall :=
  match provider with
  | .cursor => enhanceWithManualAPI cfg w userInput fallback
  | .claudeCode => enhanceWithManualAPI cfg w userInput fallback
  | .continueDev => enhanceWithManualAPI cfg w userInput fallback
  | .cody => enhanceWithManualAPI cfg w userInput fallback
  | _ => (.ok ⟨fallback, takeS 200 fallback, false⟩, [])

/-- `AIEnhancer.enhance`.  The result type is a plain `EnhancedPrompt`
(plus state and trace): the embedding of the outermost `try`/`catch`
leaves no error case, which is the "never raises to the caller"
contract.  `w.detection` stands for the awaited `llmDetector.detect()`
result in `auto` mode. -/
def enhance (cfg : AIConfig) (w : World) (st : EnhancerState)
    (userInput ruleEnhancedPrompt : String) :
    EnhancedPrompt × EnhancerState × List NetCall :=
  if cfg.enhancementMode = "ruleOnly" then
    (⟨ruleEnhancedPrompt, takeS 200 ruleEnhancedPrompt, false⟩, st, [])
  else
    let att : Except Unit (Option EnhancedPrompt) × EnhancerState × List NetCall :=
      if cfg.enhancementMode = "auto" then
        match checkOllama w st with
        | ((avail, models), st', tr1) =>
          if avail && !models.isEmpty then
            match callOllamaAPI w userInput with
            | (.ok r, tr2) => (.ok (some r), st', tr1 ++ tr2)
            | (.error e, tr2) => (.error e, st', tr1 ++ tr2)
          else
            if w.detection.canEnhance then
              match enhanceWithProvider cfg w w.detection.provider
                  userInput ruleEnhancedPrompt with
              | (.ok r, tr2) => (.ok (some r), st', tr1 ++ tr2)
              | (.error e, tr2) => (.error e, st', tr1 ++ tr2)
            else (.ok Option.none, st', tr1)
      else if cfg.enhancementMode = "manual" then
        match enhanceWithManualAPI cfg w userInput ruleEnhancedPrompt with
        | (.ok r, tr) => (.ok (some r), st, tr)
        | (.error e, tr) => (.error e, st, tr)
      else (.ok Option.none, st, [])
    match att with
    | (.ok (some r), st2, trace) => (r, st2, trace)
    | (.ok Option.none, st2, trace) =>
      (⟨ruleEnhancedPrompt, takeS 200 ruleEnhancedPrompt, false⟩, st2, trace)
    | (.error _, st2, trace) =>
      (⟨ruleEnhancedPrompt, takeS 200 ruleEnhancedPrompt, false⟩, st2, trace)

end AIEnhancer

/-! ## LLM detector (`src/services/llmDetector.ts`) -/

/-- The environment signals the detector consults. -/
structure DetectEnv where
  isCursor : Bool
  claudeInstalled : Bool
  continueInstalled : Bool
  codyInstalled : Bool
  copilotInstalled : Bool
deriving DecidableEq, Repr

/-- The uncached priority chain of `LLMDetector.detect`
(Cursor > Claude Code > Continue > Cody > Copilot > none). -/
def computeDetection (env : DetectEnv) : LLMDetectionResult :=
  if env.isCursor then ⟨.cursor, true, true, "Cursor"⟩
  else if env.claudeInstalled then ⟨.claudeCode, true, true, "Claude Code"⟩
  else if env.continueInstalled then ⟨.continueDev, true, true, "Continue.dev"⟩
  else if env.codyInstalled then ⟨.cody, true, true, "Sourcegraph Cody"⟩
  else if env.copilotInstalled then ⟨.copilot, true, false, "GitHub Copilot"⟩
  else ⟨.none, false, false, "None detected"⟩

/-- `LLMDetector`'s private cache fields. -/
structure DetectorState where
  cachedResult : Option LLMDetectionResult
  lastCheck : Nat
deriving DecidableEq, Repr

/-- `CACHE_DURATION` (one minute, in milliseconds). -/
def CACHE_DURATION : Nat := 60000

namespace LLMDetector

/-- The state of a freshly constructed `LLMDetector`. -/
def initialState : DetectorState := ⟨Option.none, 0⟩

/-- `LLMDetector.clearCache`. -/
def clearCache (_ : DetectorState) : DetectorState := ⟨Option.none, 0⟩

/-- `LLMDetector.detect`: returns the cached result while it is valid,
otherwise re-probes.  The boolean reports whether the environment was
probed. -/
def detect (forceRefresh : Bool) (now : Nat) (env : DetectEnv)
    (st : DetectorState) : LLMDetectionResult × DetectorState × Bool :=
  match st.cachedResult with
  | some r =>
    if !forceRefresh && decide (now - st.lastCheck < CACHE_DURATION) then
      (r, st, false)
    else
      let res := computeDetection env
      (res, ⟨some res, now⟩, true)
  | Option.none =>
    let res := computeDetection env
    (res, ⟨some res, now⟩, true)

end LLMDetector

/-! ## Shared sample values for concrete witnesses -/

/-- An empty editor context. -/
def emptyContext : PromptContext :=
  ⟨Option.none, Option.none, Option.none, Option.none, Option.none,
    Option.none, Option.none⟩

/-- All context flags off. -/
def noFlags : IncludeContext := ⟨false, false, false, false⟩

/-- A `ruleOnly` configuration. -/
def ruleOnlyCfg : AIConfig :=
  ⟨"ruleOnly", "ollama", "", "http://localhost:11434", "llama3.2"⟩

/-- A `manual` configuration. -/
def manualCfg (provider key : String) : AIConfig :=
  ⟨"manual", provider, key, "http://localhost:11434", "llama3.2"⟩

/-- An `auto` configuration. -/
def autoCfg : AIConfig :=
  ⟨"auto", "ollama", "", "http://localhost:11434", "llama3.2"⟩

/-- A world in which every network call fails with a transport error. -/
def failWorld : World :=
  ⟨.thrown, .thrown, .thrown, .thrown, .thrown,
    ⟨.cursor, true, true, "Cursor"⟩⟩

/-- A world in which the local backend is reachable and every generation
call succeeds. -/
def okWorld : World :=
  ⟨.ok (some ["llama3.2"]), .ok (some ["llama3.2"]), .ok (some "Enhanced."),
    .ok (some "Enhanced."), .ok (some "Enhanced."),
    ⟨.cursor, true, true, "Cursor"⟩⟩

/-- The eight intents in their enumeration order. -/
def intentOrder : List TaskIntent :=
  [.fix, .add, .change, .explain, .test, .review, .improve, .document]

/-- Claim-side: the keywords of an intent, read off the keyword table. -/
def intentKeywords (i : TaskIntent) : List String :=
  match INTENT_KEYWORDS.find? (fun p => p.1 == i) with
  | some p => p.2
  | Option.none => []

/-- Claim-side score (spec 4.1): the sum of the character lengths of the
intent's keywords occurring as substrings of the lower-cased input. -/
def intentScore (input : String) (i : TaskIntent) : Nat :=
  ((intentKeywords i).map
    (fun kw => if containsL (lowerL input.data) kw.data then kw.data.length
      else 0)).sum

/-- The highest score over the eight intents. -/
def maxIntentScore (input : String) : Nat :=
  (intentOrder.map (intentScore input)).foldr Nat.max 0

/-- Claim-side classifier: the first intent in enumeration order whose
score attains the maximum (`fix`, the first intent, when every score is
zero). -/
def classifySpec (input : String) : TaskIntent :=
  match intentOrder.find?
      (fun i => Nat.ble (maxIntentScore input) (intentScore input i)) with
  | some i => i
  | Option.none => .fix

/-- Claim-side hint list (spec 4.3): every cluster with a trigger keyword
occurring case-insensitively in the input contributes all its hint terms,
and the accumulated list is deduplicated preserving first-seen order. -/
def hintsSpec (input : String) : List String :=
  dedupFirst (((TECHNICAL_ENHANCEMENTS.filter
    (fun m => m.keywords.any
      (fun kw => containsL (lowerL input.data) kw.data))).map
    (fun m => m.technicalTerms)).flatten)

/-- The catalog's placeholder tokens. -/
def placeholderTokens : List String :=
  ["{issue}", "{error}", "{feature}", "{description}", "{goal}", "{changes}",
    "{scenario}", "{context}"]

/-- No placeholder token occurs in the string. -/
def tokenFree (s : String) : Bool :=
  placeholderTokens.all (fun tok => !containsL s.data tok.data)

/-- Claim-side fill (spec 4.4 steps 5–6): substitute every occurrence of
each content placeholder with the enhanced description and of
`{context}` with the rendered context block, in the source's placeholder
order; without a template, fall back to description, blank line, context
block. -/
def claimFill (template? : Option PromptTemplate)
    (enhanced contextStr : String) : String :=
  match template? with
  | some t =>
    replaceAllS (replaceAllS (replaceAllS (replaceAllS (replaceAllS
      (replaceAllS (replaceAllS (replaceAllS t.template
        "{issue}" enhanced) "{error}" enhanced) "{feature}" enhanced)
        "{description}" enhanced) "{goal}" enhanced) "{changes}" enhanced)
        "{scenario}" enhanced) "{context}" contextStr
  | Option.none => enhanced ++ "\n\n" ++ contextStr

/-- Segments of the per-intent first templates around their placeholders.
`segMid` is the text between a content placeholder and `{context}`. -/
def segMid : String := "\n\n"

/-- `fix-bug` before `{issue}`. -/
def segFixA : String := "Fix the bug in this code. The issue is: "

/-- `fix-bug` after `{context}`. -/
def segFixC : String := "\n\nPlease:\n1. Identify the root cause of the bug\n2. Provide a corrected implementation\n3. Explain what was wrong and why the fix works"

/-- `add-feature` before `{feature}`. -/
def segAddA : String := "Add the following feature: "

/-- `add-feature` after `{context}`. -/
def segAddC : String := "\n\nRequirements:\n- Follow existing code patterns and conventions\n- Include proper error handling\n- Make it production-ready"

/-- `change-refactor` before `{goal}`. -/
def segChangeA : String := "Refactor this code to: "

/-- `change-refactor` after `{context}`. -/
def segChangeC : String := "\n\nGuidelines:\n- Maintain the same functionality\n- Improve code quality and readability\n- Follow best practices for this language"

/-- `explain-code` before `{context}`. -/
def segExplainA : String := "Explain this code in detail:\n\n"

/-- `explain-code` after `{context}`. -/
def segExplainC : String := "\n\nPlease cover:\n1. What this code does (high-level overview)\n2. How it works (step-by-step breakdown)\n3. Key concepts or patterns used\n4. Any potential issues or improvements"

/-- `test-unit` before `{context}`. -/
def segTestA : String := "Write unit tests for this code:\n\n"

/-- `test-unit` after `{context}`. -/
def segTestC : String := "\n\nInclude tests for:\n- Normal/expected inputs\n- Edge cases\n- Error conditions\n- Boundary values\n\nUse the testing framework appropriate for this language/project."

/-- `review-code` before `{context}`. -/
def segReviewA : String := "Review this code for:\n\n"

/-- `review-code` after `{context}`. -/
def segReviewC : String := "\n\nPlease check for:\n1. Bugs or logic errors\n2. Security vulnerabilities\n3. Performance issues\n4. Code style and best practices\n5. Suggestions for improvement"

/-- `improve-performance` before `{context}`. -/
def segImproveA : String := "Optimize this code for better performance:\n\n"

/-- `improve-performance` after `{context}`. -/
def segImproveC : String := "\n\nFocus on:\n- Reducing time complexity\n- Minimizing memory usage\n- Eliminating unnecessary operations\n- Using more efficient algorithms/data structures"

/-- `document-code` before `{context}`. -/
def segDocumentA : String := "Add documentation to this code:\n\n"

/-- `document-code` after `{context}`. -/
def segDocumentC : String := "\n\nInclude:\n- Function/method documentation (JSDoc, docstrings, etc.)\n- Inline comments for complex logic\n- Usage examples where helpful"

/-! ## Theorems -/

/-! ## Lemmas about substring containment and replacement -/

theorem containsL_cons_of {cs pat : List Char} (c : Char)
    (h : containsL cs pat = true) : containsL (c :: cs) pat = true := by
  simp [containsL, h]

theorem containsL_iff (l pat : List Char) :
    containsL l pat = true ↔ ∃ a b, l = a ++ pat ++ b := by
  induction l with
  | nil =>
    simp only [containsL, List.isEmpty_iff]
    constructor
    · rintro rfl; exact ⟨[], [], rfl⟩
    · rintro ⟨a, b, h⟩
      rcases a <;> rcases pat <;> simp_all
  | cons c cs ih =>
    simp only [containsL, Bool.or_eq_true, ih]
    constructor
    · rintro (hp | ⟨a, b, rfl⟩)
      · rcases List.isPrefixOf_iff_prefix.mp hp with ⟨b, hb⟩
        exact ⟨[], b, by simp [← hb]⟩
      · exact ⟨c :: a, b, rfl⟩
    · rintro ⟨a, b, h⟩
      cases a with
      | nil =>
        left
        exact List.isPrefixOf_iff_prefix.mpr ⟨b, by simpa using h.symm⟩
      | cons a0 as =>
        right
        refine ⟨as, b, ?_⟩
        simp only [List.cons_append, List.cons.injEq] at h
        exact h.2

theorem prefix_append_split {α : Type} {p a b : List α} (h : p <+: a ++ b) :
    p <+: a ∨ ∃ q, p = a ++ q ∧ q <+: b := by
  induction a generalizing p with
  | nil => exact Or.inr ⟨p, rfl, by simpa using h⟩
  | cons x xs ih =>
    cases p with
    | nil => exact Or.inl List.nil_prefix
    | cons y ys =>
      obtain ⟨t, ht⟩ := h
      simp only [List.cons_append, List.cons.injEq] at ht
      obtain ⟨rfl, ht2⟩ := ht
      rcases ih ⟨t, ht2⟩ with h1 | ⟨q, rfl, hq⟩
      · exact Or.inl (by obtain ⟨u, hu⟩ := h1; exact ⟨u, by simp [← hu]⟩)
      · exact Or.inr ⟨q, by simp, hq⟩

/-- Decomposition of a substring occurrence over a concatenation: the
occurrence lies in the left part, in the right part, or crosses the
boundary, splitting the pattern into a nonempty suffix-of-left part and a
nonempty prefix-of-right part. -/
theorem containsL_append_cases {a b pat : List Char}
    (h : containsL (a ++ b) pat = true) :
    containsL a pat = true ∨ containsL b pat = true ∨
      ∃ t₁ t₂, pat = t₁ ++ t₂ ∧ t₁ ≠ [] ∧ t₂ ≠ [] ∧ t₁ <:+ a ∧ t₂ <+: b := by
  induction a with
  | nil => exact Or.inr (Or.inl (by simpa using h))
  | cons x xs ih =>
    rw [List.cons_append] at h
    simp only [containsL, Bool.or_eq_true] at h
    rcases h with hp | hc
    · replace hp := List.isPrefixOf_iff_prefix.mp hp
      rw [← List.cons_append] at hp
      rcases prefix_append_split hp with h1 | ⟨q, rfl, hq⟩
      · left
        exact (containsL_iff _ _).mpr
          (by obtain ⟨t, ht⟩ := h1; exact ⟨[], t, by simp [← ht]⟩)
      · cases q with
        | nil =>
          left
          exact (containsL_iff _ _).mpr ⟨[], [], by simp⟩
        | cons q0 qs =>
          right; right
          exact ⟨x :: xs, q0 :: qs, rfl, by simp, by simp,
            List.suffix_refl _, hq⟩
    · rcases ih hc with h1 | h2 | ⟨t₁, t₂, hpat, ht1, ht2, hs, hpre⟩
      · exact Or.inl (containsL_cons_of x h1)
      · exact Or.inr (Or.inl h2)
      · exact Or.inr (Or.inr ⟨t₁, t₂, hpat, ht1, ht2,
          hs.trans (List.suffix_cons x xs), hpre⟩)

/-- A contained pattern is a sub-multiset of its host. -/
theorem subset_of_containsL {l pat : List Char}
    (h : containsL l pat = true) : pat ⊆ l := by
  obtain ⟨a, b, rfl⟩ := (containsL_iff l pat).mp h
  intro x hx
  simp [hx]

/-- A nonempty prefix of the pattern shares the pattern's head. -/
theorem nonempty_prefix_head {t tok : List Char}
    (hne : t ≠ []) (hp : t <+: tok) : t.head? = tok.head? := by
  obtain ⟨r, rfl⟩ := hp
  cases t with
  | nil => exact absurd rfl hne
  | cons c cs => simp

/-- Crossing occurrences starting inside a brace-free piece are impossible:
the pattern head `'{'` would have to be a member of that piece. -/
theorem cross_left_brace {t₁ tok a : List Char}
    (hhead : tok.head? = some '{') (hne : t₁ ≠ [])
    (hp : t₁ <+: tok) (hs : t₁ <:+ a) : '{' ∈ a := by
  have h1 : t₁.head? = some '{' := (nonempty_prefix_head hne hp).trans hhead
  cases t₁ with
  | nil => exact absurd rfl hne
  | cons c cs =>
    simp only [List.head?_cons, Option.some.injEq] at h1
    subst h1
    exact hs.subset (by simp)

/-- Crossing occurrences continuing into a piece whose first character is
not a character of the pattern are impossible. -/
theorem cross_right_head {t₂ tok y : List Char} {c : Char}
    (hne : t₂ ≠ []) (hsfx : t₂ <:+ tok) (hp : t₂ <+: y)
    (hhead : y.head? = some c) : c ∈ tok := by
  cases t₂ with
  | nil => exact absurd rfl hne
  | cons d ds =>
    obtain ⟨r, hr⟩ := hp
    rw [← hr] at hhead
    simp only [List.cons_append, List.head?_cons, Option.some.injEq] at hhead
    subst hhead
    exact hsfx.subset (by simp)

/-- A nonempty suffix-of-host part of a crossing occurrence contains the
host's last character. -/
theorem cross_last_mem {t₁ a : List Char} {c : Char}
    (hne : t₁ ≠ []) (hs : t₁ <:+ a) (hlast : a.getLast? = some c) : c ∈ t₁ := by
  obtain ⟨u, rfl⟩ := hs
  rw [List.getLast?_append_of_ne_nil _ hne] at hlast
  have hmem : c ∈ t₁.getLast? := by simp [hlast]
  obtain ⟨h, rfl⟩ := List.mem_getLast?_eq_getLast hmem
  exact List.getLast_mem h

/-- A pattern starting with `'{'` cannot occur in a list free of `'{'`. -/
theorem not_containsL_of_brace_free {a tok : List Char}
    (hhd : tok.head? = some '{') (ha : '{' ∈ a → False) :
    containsL a tok = false := by
  by_contra h
  rw [Bool.not_eq_false] at h
  have hsub := subset_of_containsL h
  cases tok with
  | nil => simp at hhd
  | cons c cs =>
    simp only [List.head?_cons, Option.some.injEq] at hhd
    subst hhd
    exact ha (hsub (by simp))

/-- Master non-containment lemma for the five-piece concatenations
`segment ++ filled-text ++ segment ++ middle ++ segment` that arise from
filling a catalog template: the concrete segments are brace-free, the
variable pieces are free of the token, and every piece following a
variable piece starts with a newline, which no placeholder token contains. -/
theorem notContains_five {tok A e B M C : List Char}
    (hhd : tok.head? = some '{') (hnl : '\n' ∈ tok → False)
    (hA : '{' ∈ A → False) (hB : '{' ∈ B → False) (hC : '{' ∈ C → False)
    (hBhd : B.head? = some '\n') (hChd : C.head? = some '\n')
    (he : containsL e tok = false) (hM : containsL M tok = false) :
    containsL (A ++ (e ++ (B ++ (M ++ C)))) tok = false := by
  by_contra h
  rw [Bool.not_eq_false] at h
  rcases containsL_append_cases h with h1 | h | ⟨t₁, t₂, hsp, hn1, hn2, hsfx, _⟩
  · rw [not_containsL_of_brace_free hhd hA] at h1; exact Bool.false_ne_true h1
  · rcases containsL_append_cases h with h1 | h | ⟨t₁, t₂, hsp, hn1, hn2, hsfx, hpre⟩
    · rw [he] at h1; exact Bool.false_ne_true h1
    · rcases containsL_append_cases h with h1 | h | ⟨t₁, t₂, hsp, hn1, hn2, hsfx, _⟩
      · rw [not_containsL_of_brace_free hhd hB] at h1; exact Bool.false_ne_true h1
      · rcases containsL_append_cases h with h1 | h1 | ⟨t₁, t₂, hsp, hn1, hn2, _, hpre⟩
        · rw [hM] at h1; exact Bool.false_ne_true h1
        · rw [not_containsL_of_brace_free hhd hC] at h1; exact Bool.false_ne_true h1
        · exact hnl (cross_right_head hn2 ⟨t₁, hsp.symm⟩ hpre hChd)
      · exact hA (absurd (cross_left_brace hhd hn1 ⟨t₂, hsp.symm⟩ hsfx) hB)
    · have hhd2 : (B ++ (M ++ C)).head? = some '\n' := by
        have hBne : B ≠ [] := by
          intro hBe; rw [hBe] at hBhd; simp at hBhd
        rw [List.head?_append_of_ne_nil _ hBne]; exact hBhd
      exact hnl (cross_right_head hn2 ⟨t₁, hsp.symm⟩ hpre hhd2)
  · exact hA (cross_left_brace hhd hn1 ⟨t₂, hsp.symm⟩ hsfx)

/-- Three-piece version of `notContains_five`, for templates with no
content placeholder (`segment ++ context-block ++ segment`). -/
theorem notContains_three {tok A e B : List Char}
    (hhd : tok.head? = some '{') (hnl : '\n' ∈ tok → False)
    (hA : '{' ∈ A → False) (hB : '{' ∈ B → False)
    (hBhd : B.head? = some '\n')
    (he : containsL e tok = false) :
    containsL (A ++ (e ++ B)) tok = false := by
  by_contra h
  rw [Bool.not_eq_false] at h
  rcases containsL_append_cases h with h1 | h | ⟨t₁, t₂, hsp, hn1, hn2, hsfx, _⟩
  · rw [not_containsL_of_brace_free hhd hA] at h1; exact Bool.false_ne_true h1
  · rcases containsL_append_cases h with h1 | h1 | ⟨t₁, t₂, hsp, hn1, hn2, _, hpre⟩
    · rw [he] at h1; exact Bool.false_ne_true h1
    · rw [not_containsL_of_brace_free hhd hB] at h1; exact Bool.false_ne_true h1
    · exact hnl (cross_right_head hn2 ⟨t₁, hsp.symm⟩ hpre hBhd)
  · exact hA (cross_left_brace hhd hn1 ⟨t₂, hsp.symm⟩ hsfx)

/-! ## Behaviour of the replacement operations -/

theorem replaceFirstL_of_not_contains {l pat rep : List Char}
    (h : containsL l pat = false) : replaceFirstL pat rep l = l := by
  induction l with
  | nil => rfl
  | cons c cs ih =>
    simp only [containsL, Bool.or_eq_false_iff] at h
    rw [replaceFirstL, if_neg (by simp [h.1]), ih h.2]

theorem replaceAllFuel_irrel {pat rep : List Char} :
    ∀ (f1 f2 : Nat) (l : List Char), l.length ≤ f1 → l.length ≤ f2 →
      replaceAllFuel pat rep f1 l = replaceAllFuel pat rep f2 l := by
  intro f1
  induction f1 with
  | zero =>
    intro f2 l h1 h2
    have hl : l = [] := List.eq_nil_of_length_eq_zero (Nat.le_zero.mp h1)
    subst hl
    cases f2 <;> rfl
  | succ f ih =>
    intro f2 l h1 h2
    cases l with
    | nil => cases f2 <;> rfl
    | cons c cs =>
      cases f2 with
      | zero => simp at h2
      | succ g =>
        simp only [replaceAllFuel]
        by_cases hc : pat.isPrefixOf (c :: cs) = true ∧ pat ≠ []
        · rw [if_pos hc, if_pos hc]
          have hp : 1 ≤ pat.length := by
            cases pat with
            | nil => exact absurd rfl hc.2
            | cons a as => simp
          congr 1
          apply ih
          · simp only [List.length_drop, List.length_cons] at h1 ⊢
            omega
          · simp only [List.length_drop, List.length_cons] at h2 ⊢
            omega
        · rw [if_neg hc, if_neg hc]
          congr 1
          apply ih
          · simp only [List.length_cons] at h1
            omega
          · simp only [List.length_cons] at h2
            omega

theorem replaceAllFuel_of_not_contains {pat rep : List Char} :
    ∀ (fuel : Nat) (l : List Char), containsL l pat = false →
      replaceAllFuel pat rep fuel l = l := by
  intro fuel
  induction fuel with
  | zero => intro l h; rfl
  | succ f ih =>
    intro l h
    cases l with
    | nil => rfl
    | cons c cs =>
      simp only [containsL, Bool.or_eq_false_iff] at h
      simp only [replaceAllFuel]
      rw [if_neg (by simp [h.1]), ih cs h.2]

theorem replaceAllL_of_not_contains {l pat rep : List Char}
    (h : containsL l pat = false) : replaceAllL pat rep l = l :=
  replaceAllFuel_of_not_contains l.length l h

/-- `replaceFirstL` scans past a region `a` that neither contains the
pattern nor hosts the left part of a crossing occurrence. -/
theorem replaceFirstL_skip {a b pat rep : List Char}
    (hc : containsL a pat = false)
    (hcross : ∀ t₁ t₂, pat = t₁ ++ t₂ → t₁ ≠ [] → t₂ ≠ [] →
      ¬(t₁ <:+ a ∧ t₂ <+: b)) :
    replaceFirstL pat rep (a ++ b) = a ++ replaceFirstL pat rep b := by
  induction a with
  | nil => rfl
  | cons x xs ih =>
    simp only [containsL, Bool.or_eq_false_iff] at hc
    have hnp : pat.isPrefixOf (x :: (xs ++ b)) = false := by
      by_contra hp
      rw [Bool.not_eq_false, List.isPrefixOf_iff_prefix, ← List.cons_append] at hp
      rcases prefix_append_split hp with h1 | ⟨q, hq, hqb⟩
      · have hpp : pat.isPrefixOf (x :: xs) = true :=
          List.isPrefixOf_iff_prefix.mpr h1
        rw [hpp] at hc
        exact Bool.noConfusion hc.1
      · cases q with
        | nil =>
          rw [List.append_nil] at hq
          have hpp : pat.isPrefixOf (x :: xs) = true :=
            List.isPrefixOf_iff_prefix.mpr (hq ▸ List.prefix_refl _)
          rw [hpp] at hc
          exact Bool.noConfusion hc.1
        | cons q0 qs =>
          exact hcross (x :: xs) (q0 :: qs) hq (by simp) (by simp)
            ⟨List.suffix_refl _, hqb⟩
    rw [List.cons_append, replaceFirstL, if_neg (by simp [hnp]),
      ih hc.2 (fun t₁ t₂ hsp h1 h2 hst =>
        hcross t₁ t₂ hsp h1 h2 ⟨hst.1.trans (List.suffix_cons x xs), hst.2⟩)]
    rfl

theorem replaceAllFuel_skip {pat rep : List Char} :
    ∀ (a b : List Char) (fuel : Nat),
      containsL a pat = false →
      (∀ t₁ t₂, pat = t₁ ++ t₂ → t₁ ≠ [] → t₂ ≠ [] →
        ¬(t₁ <:+ a ∧ t₂ <+: b)) →
      replaceAllFuel pat rep (a.length + fuel) (a ++ b) =
        a ++ replaceAllFuel pat rep fuel b := by
  intro a
  induction a with
  | nil => intro b fuel h1 h2; rw [List.length_nil, Nat.zero_add]; rfl
  | cons x xs ih =>
    intro b fuel hc hcross
    simp only [containsL, Bool.or_eq_false_iff] at hc
    have hnp : pat.isPrefixOf (x :: (xs ++ b)) = false := by
      by_contra hp
      rw [Bool.not_eq_false, List.isPrefixOf_iff_prefix, ← List.cons_append] at hp
      rcases prefix_append_split hp with h1 | ⟨q, hq, hqb⟩
      · have hpp : pat.isPrefixOf (x :: xs) = true :=
          List.isPrefixOf_iff_prefix.mpr h1
        rw [hpp] at hc
        exact Bool.noConfusion hc.1
      · cases q with
        | nil =>
          rw [List.append_nil] at hq
          have hpp : pat.isPrefixOf (x :: xs) = true :=
            List.isPrefixOf_iff_prefix.mpr (hq ▸ List.prefix_refl _)
          rw [hpp] at hc
          exact Bool.noConfusion hc.1
        | cons q0 qs =>
          exact hcross (x :: xs) (q0 :: qs) hq (by simp) (by simp)
            ⟨List.suffix_refl _, hqb⟩
    show replaceAllFuel pat rep ((x :: xs).length + fuel) (x :: (xs ++ b)) = _
    rw [show (x :: xs).length + fuel = (xs.length + fuel) + 1 by simp; omega]
    simp only [replaceAllFuel]
    rw [if_neg (by simp [hnp]),
      ih b fuel hc.2 (fun t₁ t₂ hsp h1 h2 hst =>
        hcross t₁ t₂ hsp h1 h2 ⟨hst.1.trans (List.suffix_cons x xs), hst.2⟩)]
    rfl

/-- `replaceAllL` analogue of `replaceFirstL_skip`. -/
theorem replaceAllL_skip {a b pat rep : List Char}
    (hc : containsL a pat = false)
    (hcross : ∀ t₁ t₂, pat = t₁ ++ t₂ → t₁ ≠ [] → t₂ ≠ [] →
      ¬(t₁ <:+ a ∧ t₂ <+: b)) :
    replaceAllL pat rep (a ++ b) = a ++ replaceAllL pat rep b := by
  unfold replaceAllL
  rw [List.length_append]
  exact replaceAllFuel_skip a b b.length hc hcross

theorem replaceFirstL_hit {pat rep b : List Char} (hne : pat ≠ []) :
    replaceFirstL pat rep (pat ++ b) = rep ++ b := by
  cases pat with
  | nil => exact absurd rfl hne
  | cons p ps =>
    show replaceFirstL (p :: ps) rep (p :: (ps ++ b)) = rep ++ b
    rw [replaceFirstL,
      if_pos (by rw [ List.isPrefixOf_iff_prefix]; exact ⟨b, rfl⟩)]
    congr 1
    exact List.drop_left (p :: ps) b

theorem replaceAllL_hit {pat rep b : List Char} (hne : pat ≠ []) :
    replaceAllL pat rep (pat ++ b) = rep ++ replaceAllL pat rep b := by
  cases pat with
  | nil => exact absurd rfl hne
  | cons p ps =>
    unfold replaceAllL
    rw [List.length_append]
    show replaceAllFuel (p :: ps) rep ((p :: ps).length + b.length)
        (p :: (ps ++ b)) = _
    rw [show (p :: ps).length + b.length = (ps.length + b.length) + 1 by
      simp; omega]
    simp only [replaceAllFuel]
    rw [if_pos ⟨by rw [ List.isPrefixOf_iff_prefix]; exact ⟨b, rfl⟩, by simp⟩]
    have hd : List.drop (p :: ps).length (p :: (ps ++ b)) = b :=
      List.drop_left (p :: ps) b
    rw [hd]
    congr 1
    exact replaceAllFuel_irrel (ps.length + b.length) b.length b
      (by omega) Nat.le.refl

/-! ## String-level wrappers

The engine's types carry `String`s like the source; every operation is the
list-level operation transported through `String.data`. -/

/-! ## Support lemmas about the AI orchestrator -/

theorem callOllamaAPI_fail {w : World} (ui : String)
    (h : w.gen.isFail = true) :
    (AIEnhancer.callOllamaAPI w ui).1 = .error () := by
  cases hg : w.gen <;>
    simp [AIEnhancer.callOllamaAPI, hg, GenOutcome.isFail] at h ⊢

theorem manualAPI_fail {cfg : AIConfig} {w : World} (ui fb : String)
    (hko : cfg.manualProvider ≠ "ollama")
    (ha : w.anthropic.isFail = true) (ho : w.openai.isFail = true) :
    (AIEnhancer.enhanceWithManualAPI cfg w ui fb).1 =
      .ok ⟨fb, takeS 200 fb, false⟩ := by
  unfold AIEnhancer.enhanceWithManualAPI
  rw [if_neg hko]
  by_cases hk : cfg.apiKey = ""
  · rw [if_pos hk]
  · rw [if_neg hk]
    by_cases hpa : cfg.manualProvider = "anthropic"
    · rw [if_pos hpa]
      cases hga : w.anthropic <;>
        simp [hga, GenOutcome.isFail] at ha ⊢
    · rw [if_neg hpa]
      by_cases hpo : cfg.manualProvider = "openai"
      · rw [if_pos hpo]
        cases hgo : w.openai <;>
          simp [hgo, GenOutcome.isFail] at ho ⊢
      · rw [if_neg hpo]

theorem manualAPI_all_fail {cfg : AIConfig} {w : World} (ui fb : String)
    (hg : w.gen.isFail = true)
    (ha : w.anthropic.isFail = true) (ho : w.openai.isFail = true) :
    (AIEnhancer.enhanceWithManualAPI cfg w ui fb).1 = .error () ∨
      (AIEnhancer.enhanceWithManualAPI cfg w ui fb).1 =
        .ok ⟨fb, takeS 200 fb, false⟩ := by
  by_cases hpo : cfg.manualProvider = "ollama"
  · left
    unfold AIEnhancer.enhanceWithManualAPI
    rw [if_pos hpo]
    exact callOllamaAPI_fail ui hg
  · exact Or.inr (manualAPI_fail ui fb hpo ha ho)

theorem provider_all_fail {cfg : AIConfig} {w : World} (p : LLMProvider)
    (ui fb : String) (hg : w.gen.isFail = true)
    (ha : w.anthropic.isFail = true) (ho : w.openai.isFail = true) :
    (AIEnhancer.enhanceWithProvider cfg w p ui fb).1 = .error () ∨
      (AIEnhancer.enhanceWithProvider cfg w p ui fb).1 =
        .ok ⟨fb, takeS 200 fb, false⟩ := by
  cases p <;>
    first
      | exact manualAPI_all_fail ui fb hg ha ho
      | exact Or.inr rfl

/-! ## Claim C1 -/

/-- C1: for every pair of inputs and every failure of the AI path — a
thrown transport error, a non-2xx status or malformed response on each
generation endpoint (first conjunct), a missing API key for a manual
keyed provider (second conjunct), or an unknown configured provider
identifier (third conjunct) — `AIEnhancer.enhance` returns the supplied
rule-based prompt with `wasAiEnhanced = false`.  Never raising to the
caller is embedded in the result type: the `try`/`catch` model leaves
`enhance` total, with no error case in its result. -/
theorem ai_enhance_failure_fallback :
    (∀ (cfg : AIConfig) (w : World) (st : EnhancerState) (ui fb : String),
      w.gen.isFail = true → w.anthropic.isFail = true →
      w.openai.isFail = true →
      (AIEnhancer.enhance cfg w st ui fb).1 = ⟨fb, takeS 200 fb, false⟩) ∧
    (∀ (cfg : AIConfig) (w : World) (st : EnhancerState) (ui fb : String),
      cfg.enhancementMode = "manual" → cfg.manualProvider ≠ "ollama" →
      cfg.apiKey = "" →
      (AIEnhancer.enhance cfg w st ui fb).1 = ⟨fb, takeS 200 fb, false⟩) ∧
    (∀ (cfg : AIConfig) (w : World) (st : EnhancerState) (ui fb : String),
      cfg.enhancementMode = "manual" → cfg.manualProvider ≠ "ollama" →
      cfg.manualProvider ≠ "anthropic" → cfg.manualProvider ≠ "openai" →
      (AIEnhancer.enhance cfg w st ui fb).1 = ⟨fb, takeS 200 fb, false⟩) := by
  refine ⟨?_, ?_, ?_⟩
  · intro cfg w st ui fb hg ha ho
    unfold AIEnhancer.enhance
    by_cases hro : cfg.enhancementMode = "ruleOnly"
    · rw [if_pos hro]
    · rw [if_neg hro]
      by_cases hau : cfg.enhancementMode = "auto"
      · rw [if_pos hau]
        rcases hco : AIEnhancer.checkOllama w st with ⟨⟨avail, models⟩, st', tr1⟩
        rcases hca : AIEnhancer.callOllamaAPI w ui with ⟨res, tr2⟩
        have hres : res = .error () := by
          have h2 := callOllamaAPI_fail ui hg
          rw [hca] at h2
          exact h2
        subst hres
        by_cases hm : (avail && !models.isEmpty) = true
        · simp [hco, hca, hm]
        · by_cases hd : w.detection.canEnhance = true
          · rcases hep : AIEnhancer.enhanceWithProvider cfg w
                w.detection.provider ui fb with ⟨res2, tr3⟩
            have h3 := @provider_all_fail cfg w w.detection.provider ui fb hg ha ho
            rw [hep] at h3
            rcases h3 with h3 | h3 <;> subst h3 <;> simp [hco, hep, hm, hd]
          · simp [hco, hm, hd]
      · rw [if_neg hau]
        by_cases hma : cfg.enhancementMode = "manual"
        · rw [if_pos hma]
          rcases hep : AIEnhancer.enhanceWithManualAPI cfg w ui fb
            with ⟨res, tr⟩
          have h3 := @manualAPI_all_fail cfg w ui fb hg ha ho
          rw [hep] at h3
          rcases h3 with h3 | h3 <;> subst h3 <;> simp [hep]
        · rw [if_neg hma]
  · intro cfg w st ui fb hm hko hk
    have hMA : AIEnhancer.enhanceWithManualAPI cfg w ui fb =
        (.ok ⟨fb, takeS 200 fb, false⟩, []) := by
      unfold AIEnhancer.enhanceWithManualAPI
      rw [if_neg hko, if_pos hk]
    unfold AIEnhancer.enhance
    rw [hm]
    simp [hMA]
  · intro cfg w st ui fb hm hko hpa hpo
    have hMA : AIEnhancer.enhanceWithManualAPI cfg w ui fb =
        (.ok ⟨fb, takeS 200 fb, false⟩, []) := by
      unfold AIEnhancer.enhanceWithManualAPI
      by_cases hk : cfg.apiKey = ""
      · rw [if_neg hko, if_pos hk]
      · rw [if_neg hko, if_neg hk, if_neg hpa, if_neg hpo]
    unfold AIEnhancer.enhance
    rw [hm]
    simp [hMA]

/-- Witness for C1 at a concrete input: with every transport failing, an
`auto`-mode call degrades to the rule-based prompt. -/
theorem ai_enhance_failure_fallback_witness :
    (AIEnhancer.enhance autoCfg failWorld AIEnhancer.initialState
      "btn broken" "Fix the button.").1 =
      ⟨"Fix the button.", takeS 200 "Fix the button.", false⟩ :=
  ai_enhance_failure_fallback.1 autoCfg failWorld AIEnhancer.initialState
    "btn broken" "Fix the button." rfl rfl rfl

/-! ## Claim C3 -/

/-- C3: in `ruleOnly` mode, `AIEnhancer.enhance` issues no network call
(the trace is empty), leaves the cached state untouched and returns the
rule-based prompt verbatim with `wasAiEnhanced = false`, for every pair
of inputs. -/
theorem ruleOnly_no_network_call
    (cfg : AIConfig) (w : World) (st : EnhancerState) (ui fb : String)
    (hm : cfg.enhancementMode = "ruleOnly") :
    AIEnhancer.enhance cfg w st ui fb =
      (⟨fb, takeS 200 fb, false⟩, st, ([] : List NetCall)) := by
  unfold AIEnhancer.enhance
  rw [if_pos hm]

/-- Witness for C3 at a concrete input. -/
theorem ruleOnly_no_network_call_witness :
    AIEnhancer.enhance ruleOnlyCfg okWorld AIEnhancer.initialState
      "btn broken" "Fix the button." =
      (⟨"Fix the button.", takeS 200 "Fix the button.", false⟩,
        AIEnhancer.initialState, ([] : List NetCall)) :=
  ruleOnly_no_network_call ruleOnlyCfg okWorld AIEnhancer.initialState
    "btn broken" "Fix the button." rfl

/-! ## Claim C4 -/

theorem callOllama_preview {w : World} {ui : String} {r : EnhancedPrompt}
    (h : (AIEnhancer.callOllamaAPI w ui).1 = .ok r) :
    r.preview = takeS 200 r.prompt := by
  cases hg : w.gen <;> simp [AIEnhancer.callOllamaAPI, hg] at h
  rw [← h]

theorem manualAPI_preview {cfg : AIConfig} {w : World} {ui fb : String}
    {r : EnhancedPrompt}
    (h : (AIEnhancer.enhanceWithManualAPI cfg w ui fb).1 = .ok r) :
    r.preview = takeS 200 r.prompt := by
  unfold AIEnhancer.enhanceWithManualAPI at h
  by_cases hpo : cfg.manualProvider = "ollama"
  · rw [if_pos hpo] at h
    exact callOllama_preview h
  · rw [if_neg hpo] at h
    by_cases hk : cfg.apiKey = ""
    · rw [if_pos hk] at h
      simp at h
      rw [← h]
    · rw [if_neg hk] at h
      by_cases hpa : cfg.manualProvider = "anthropic"
      · rw [if_pos hpa] at h
        cases hga : w.anthropic <;> simp [hga] at h <;> rw [← h]
      · rw [if_neg hpa] at h
        by_cases hpb : cfg.manualProvider = "openai"
        · rw [if_pos hpb] at h
          cases hgo : w.openai <;> simp [hgo] at h <;> rw [← h]
        · rw [if_neg hpb] at h
          simp at h
          rw [← h]

theorem provider_preview {cfg : AIConfig} {w : World} {p : LLMProvider}
    {ui fb : String} {r : EnhancedPrompt}
    (h : (AIEnhancer.enhanceWithProvider cfg w p ui fb).1 = .ok r) :
    r.preview = takeS 200 r.prompt := by
  cases p <;>
    first
      | exact manualAPI_preview h
      | (simp [AIEnhancer.enhanceWithProvider] at h; rw [← h])

/-- Every path of the orchestrator produces `preview = prompt.substring(0, 200)`. -/
theorem ai_enhance_preview_take (cfg : AIConfig) (w : World)
    (st : EnhancerState) (ui fb : String) :
    (AIEnhancer.enhance cfg w st ui fb).1.preview =
      takeS 200 (AIEnhancer.enhance cfg w st ui fb).1.prompt := by
  unfold AIEnhancer.enhance
  by_cases hro : cfg.enhancementMode = "ruleOnly"
  · rw [if_pos hro]
  · rw [if_neg hro]
    by_cases hau : cfg.enhancementMode = "auto"
    · rw [if_pos hau]
      rcases hco : AIEnhancer.checkOllama w st with ⟨⟨avail, models⟩, st', tr1⟩
      by_cases hm : (avail && !models.isEmpty) = true
      · rcases hca : AIEnhancer.callOllamaAPI w ui with ⟨res, tr2⟩
        cases res with
        | ok r =>
          have hr : r.preview = takeS 200 r.prompt :=
            callOllama_preview (by rw [hca])
          simp [hco, hca, hm, hr]
        | error e => simp [hco, hca, hm]
      · by_cases hd : w.detection.canEnhance = true
        · rcases hep : AIEnhancer.enhanceWithProvider cfg w
              w.detection.provider ui fb with ⟨res, tr2⟩
          cases res with
          | ok r =>
            have hr : r.preview = takeS 200 r.prompt :=
              provider_preview (by rw [hep])
            simp [hco, hep, hm, hd, hr]
          | error e => simp [hco, hep, hm, hd]
        · simp [hco, hm, hd]
    · rw [if_neg hau]
      by_cases hma : cfg.enhancementMode = "manual"
      · rw [if_pos hma]
        rcases hep : AIEnhancer.enhanceWithManualAPI cfg w ui fb with ⟨res, tr⟩
        cases res with
        | ok r =>
          have hr : r.preview = takeS 200 r.prompt :=
            manualAPI_preview (by rw [hep])
          simp [hep, hr]
        | error e => simp [hep]
      · rw [if_neg hma]

/-- C4, counterexample to the claim as stated: in `ruleOnly` mode with a
201-character rule-based prompt, the orchestrator's prompt is longer than
200 characters while its preview has length 200, not 203 (no ellipsis is
appended on the AI-orchestrator side). -/
theorem preview_truncation_counterexample :
    200 < lenS (AIEnhancer.enhance ruleOnlyCfg okWorld AIEnhancer.initialState
      "x" (⟨List.replicate 201 'a'⟩ : String)).1.prompt ∧
    lenS (AIEnhancer.enhance ruleOnlyCfg okWorld AIEnhancer.initialState
      "x" (⟨List.replicate 201 'a'⟩ : String)).1.preview ≠ 203 := by
  constructor
  · show 200 < (List.replicate 201 'a').length
    rw [List.length_replicate]
    omega
  · show ((List.replicate 201 'a').take 200).length ≠ 203
    rw [List.length_take, List.length_replicate]
    omega

/-- C4, amended: `RuleEngine.enhance` truncates with an ellipsis (length
203, sharing the first 200 characters with the prompt — the full preview
is not a prefix), while `AIEnhancer.enhance` always returns the plain
200-character prefix with no ellipsis. -/
theorem preview_truncation_corrected :
    (∀ req : PromptRequest,
      (RuleEngine.enhance req).preview =
        (if 200 < lenS (RuleEngine.enhance req).prompt then
          takeS 200 (RuleEngine.enhance req).prompt ++ "..."
        else (RuleEngine.enhance req).prompt)) ∧
    (∀ req : PromptRequest, 200 < lenS (RuleEngine.enhance req).prompt →
      lenS (RuleEngine.enhance req).preview = 203 ∧
      takeS 200 (RuleEngine.enhance req).preview =
        takeS 200 (RuleEngine.enhance req).prompt) ∧
    (∀ req : PromptRequest, lenS (RuleEngine.enhance req).prompt ≤ 200 →
      (RuleEngine.enhance req).preview = (RuleEngine.enhance req).prompt) ∧
    (∀ (cfg : AIConfig) (w : World) (st : EnhancerState) (ui fb : String),
      (AIEnhancer.enhance cfg w st ui fb).1.preview =
        takeS 200 (AIEnhancer.enhance cfg w st ui fb).1.prompt ∧
      ((AIEnhancer.enhance cfg w st ui fb).1.preview).data <+:
        ((AIEnhancer.enhance cfg w st ui fb).1.prompt).data) := by
  refine ⟨?_, ?_, ?_, ?_⟩
  · intro req
    rfl
  · intro req hlen
    have hlen' : 200 < ((RuleEngine.enhance req).prompt).data.length := hlen
    have hp : (RuleEngine.enhance req).preview =
        takeS 200 (RuleEngine.enhance req).prompt ++ "..." := by
      show (if 200 < lenS (RuleEngine.enhance req).prompt then
        takeS 200 (RuleEngine.enhance req).prompt ++ "..."
        else (RuleEngine.enhance req).prompt) = _
      rw [if_pos hlen]
    constructor
    · rw [hp]
      show ((RuleEngine.enhance req).prompt.data.take 200 ++ "...".data).length
        = 203
      have h3 : ("...".data).length = 3 := rfl
      rw [List.length_append, List.length_take, h3]
      omega
    · rw [hp]
      refine congrArg String.mk ?_
      show ((RuleEngine.enhance req).prompt.data.take 200 ++ "...".data).take 200
        = (RuleEngine.enhance req).prompt.data.take 200
      rw [List.take_append_of_le_length (by rw [List.length_take]; omega)]
      rw [List.take_take]
      simp
  · intro req hlen
    show (if 200 < lenS (RuleEngine.enhance req).prompt then
      takeS 200 (RuleEngine.enhance req).prompt ++ "..."
      else (RuleEngine.enhance req).prompt) = _
    rw [if_neg (by omega)]
  · intro cfg w st ui fb
    refine ⟨ai_enhance_preview_take cfg w st ui fb, ?_⟩
    rw [ai_enhance_preview_take cfg w st ui fb]
    exact List.take_prefix _ _

/-- Witness for C4 at a concrete request whose final prompt exceeds 200
characters. -/
theorem preview_truncation_corrected_witness :
    200 < lenS (RuleEngine.enhance ⟨.explain, "x", emptyContext, noFlags⟩).prompt ∧
    lenS (RuleEngine.enhance ⟨.explain, "x", emptyContext, noFlags⟩).preview = 203 :=
  ⟨by decide,
    (preview_truncation_corrected.2.1 ⟨.explain, "x", emptyContext, noFlags⟩
      (by decide)).1⟩

/-! ## Claim C10 -/

/-- C10, counterexample to the claim as stated: `AIEnhancer.checkOllama`
holds no time-to-live state at all — a second, immediately consecutive
call still probes the backend (its call trace is nonempty, beginning with
a tags fetch), rather than returning the cached result without a probe. -/
theorem availability_cache_counterexample :
    (AIEnhancer.checkOllama okWorld
      (AIEnhancer.checkOllama okWorld AIEnhancer.initialState).2.1).2.2 =
      [NetCall.ollamaTags, NetCall.ollamaTags] := by
  rfl

/-- C10, amended: the 60-second time-to-live cache governs
`LLMDetector.detect` — a second call within the TTL returns the identical
cached result without re-probing, and a call after TTL expiry, after
`clearCache`, or with `forceRefresh` re-probes — while
`AIEnhancer.checkOllama` stores its last result but re-probes the local
backend on every call. -/
theorem availability_cache_corrected :
    (∀ (env : DetectEnv) (now1 now2 : Nat), now2 - now1 < CACHE_DURATION →
      LLMDetector.detect false now2 env
          (LLMDetector.detect false now1 env LLMDetector.initialState).2.1 =
        ((LLMDetector.detect false now1 env LLMDetector.initialState).1,
          (LLMDetector.detect false now1 env LLMDetector.initialState).2.1,
          false)) ∧
    (∀ (env : DetectEnv) (st : DetectorState) (now : Nat),
      CACHE_DURATION ≤ now - st.lastCheck →
      LLMDetector.detect false now env st =
        (computeDetection env, ⟨some (computeDetection env), now⟩, true)) ∧
    (∀ (env : DetectEnv) (st : DetectorState) (now : Nat),
      LLMDetector.detect false now env (LLMDetector.clearCache st) =
        (computeDetection env, ⟨some (computeDetection env), now⟩, true)) ∧
    (∀ (env : DetectEnv) (st : DetectorState) (now : Nat),
      LLMDetector.detect true now env st =
        (computeDetection env, ⟨some (computeDetection env), now⟩, true)) ∧
    (∀ (w : World) (st : EnhancerState),
      (AIEnhancer.checkOllama w st).2.2.head? = some NetCall.ollamaTags) := by
  refine ⟨?_, ?_, ?_, ?_, ?_⟩
  · intro env now1 now2 hlt
    unfold LLMDetector.detect LLMDetector.initialState
    simp only
    rw [if_pos]
    simp only [Bool.not_false, Bool.true_and, decide_eq_true_eq]
    simpa using hlt
  · intro env st now hge
    unfold LLMDetector.detect
    cases st.cachedResult with
    | none => rfl
    | some r =>
      dsimp only
      rw [if_neg]
      simp only [Bool.not_false, Bool.true_and, decide_eq_true_eq]
      omega
  · intro env st now
    rfl
  · intro env st now
    unfold LLMDetector.detect
    cases st.cachedResult with
    | none => rfl
    | some r =>
      dsimp only
      rw [if_neg]
      simp
  · intro w st
    unfold AIEnhancer.checkOllama
    by_cases hav : (match w.tags1 with
      | .thrown => false
      | .notOk => false
      | .malformed => true
      | .ok _ => true) = true
    · rw [hav]
      simp
    · rw [Bool.not_eq_true] at hav
      rw [hav]
      simp

/-- Witness for C10 at concrete times: a probe at time 0, then a cached
hit at time 59999. -/
theorem availability_cache_corrected_witness :
    LLMDetector.detect false 59999 ⟨true, false, false, false, false⟩
        (LLMDetector.detect false 0 ⟨true, false, false, false, false⟩
          LLMDetector.initialState).2.1 =
      ((LLMDetector.detect false 0 ⟨true, false, false, false, false⟩
          LLMDetector.initialState).1,
        (LLMDetector.detect false 0 ⟨true, false, false, false, false⟩
          LLMDetector.initialState).2.1, false) :=
  availability_cache_corrected.1 ⟨true, false, false, false, false⟩ 0 59999
    (by decide)

/-! ## Claim C2 -/

theorem foldl_if_add_eq_sum (f : String → Nat) (P : String → Bool) :
    ∀ (kws : List String) (z : Nat),
      kws.foldl (fun s kw => if P kw then s + f kw else s) z =
        z + (kws.map (fun kw => if P kw then f kw else 0)).sum := by
  intro kws
  induction kws with
  | nil => intro z; simp
  | cons k ks ih =>
    intro z
    simp only [List.foldl_cons, List.map_cons, List.sum_cons]
    by_cases hp : P k = true
    · rw [if_pos hp, if_pos hp, ih]
      omega
    · rw [if_neg hp, if_neg hp, ih]
      omega

theorem foldl_argmax_ge {I : Type} (s : I → Nat) :
    ∀ (l : List I) (b : I) (v : Nat),
      (l.map s).foldr Nat.max 0 ≤ v →
      l.foldl (fun best i => if best.2 < s i then (i, s i) else best) (b, v) =
        (b, v) := by
  intro l
  induction l with
  | nil => intro b v h; rfl
  | cons a t ih =>
    intro b v h
    simp only [List.map_cons, List.foldr_cons] at h
    have h1 : s a ≤ v := Nat.le_trans (Nat.le_max_left _ _) h
    have h2 : (t.map s).foldr Nat.max 0 ≤ v :=
      Nat.le_trans (Nat.le_max_right _ _) h
    simp only [List.foldl_cons]
    rw [if_neg (by omega)]
    exact ih b v h2

theorem foldl_argmax_lt {I : Type} (s : I → Nat) :
    ∀ (l : List I) (b : I) (v : Nat),
      v < (l.map s).foldr Nat.max 0 →
      ∃ i, l.find? (fun j => Nat.ble ((l.map s).foldr Nat.max 0) (s j)) =
          some i ∧
        l.foldl (fun best j => if best.2 < s j then (j, s j) else best) (b, v) =
          (i, (l.map s).foldr Nat.max 0) := by
  intro l
  induction l with
  | nil => intro b v h; simp at h
  | cons a t ih =>
    intro b v h
    simp only [List.map_cons, List.foldr_cons] at h ⊢
    by_cases hc : (t.map s).foldr Nat.max 0 ≤ s a
    · have hM : Nat.max (s a) ((t.map s).foldr Nat.max 0) = s a :=
        Nat.max_eq_left hc
      rw [hM] at h ⊢
      refine ⟨a, ?_, ?_⟩
      · exact List.find?_cons_of_pos _ (by simp)
      · simp only [List.foldl_cons]
        rw [if_pos (by omega)]
        exact foldl_argmax_ge s t a (s a) hc
    · push_neg at hc
      have hM : Nat.max (s a) ((t.map s).foldr Nat.max 0) =
          (t.map s).foldr Nat.max 0 := Nat.max_eq_right (Nat.le_of_lt hc)
      rw [hM] at h ⊢
      by_cases hva : v < s a
      · obtain ⟨i, hfind, hfold⟩ := ih a (s a) hc
        refine ⟨i, ?_, ?_⟩
        · rw [List.find?_cons_of_neg _ (by simp; omega)]
          exact hfind
        · simp only [List.foldl_cons]
          rw [if_pos (by omega)]
          exact hfold
      · obtain ⟨i, hfind, hfold⟩ := ih b v (by omega)
        refine ⟨i, ?_, ?_⟩
        · rw [List.find?_cons_of_neg _ (by simp; omega)]
          exact hfind
        · simp only [List.foldl_cons]
          rw [if_neg (by omega)]
          exact hfold

theorem foldl_pairs_eq (LI : List Char) (s : TaskIntent → Nat) :
    ∀ (l : List (TaskIntent × List String)) (acc : TaskIntent × Nat),
      (∀ p ∈ l, p.2.foldl
        (fun t kw => if containsL LI kw.data then t + kw.data.length else t)
        0 = s p.1) →
      l.foldl (fun (best : TaskIntent × Nat) p =>
        let score := p.2.foldl
          (fun t kw => if containsL LI kw.data then t + kw.data.length else t) 0
        if best.2 < score then (p.1, score) else best) acc =
      (l.map Prod.fst).foldl
        (fun best i => if best.2 < s i then (i, s i) else best) acc := by
  intro l
  induction l with
  | nil => intro acc h; rfl
  | cons p ps ih =>
    intro acc h
    simp only [List.foldl_cons, List.map_cons]
    rw [h p (by simp)]
    exact ih _ (fun q hq => h q (by simp [hq]))

theorem char_toLower_idem (c : Char) : (c.toLower).toLower = c.toLower := by
  by_cases h : c.toNat ≥ 65 ∧ c.toNat ≤ 90
  · have h1 : c.toLower = Char.ofNat (c.toNat + 32) := by
      show (if c.toNat ≥ 65 ∧ c.toNat ≤ 90 then Char.ofNat (c.toNat + 32)
        else c) = _
      rw [if_pos h]
    rw [h1]
    obtain ⟨ha, hb⟩ := h
    generalize c.toNat = n at ha hb ⊢
    interval_cases n <;> decide
  · have h1 : c.toLower = c := by
      show (if c.toNat ≥ 65 ∧ c.toNat ≤ 90 then Char.ofNat (c.toNat + 32)
        else c) = _
      rw [if_neg h]
    rw [h1, h1]

theorem lowerL_idem (l : List Char) : lowerL (lowerL l) = lowerL l := by
  unfold lowerL
  rw [List.map_map]
  apply List.map_congr_left
  intro c _
  exact char_toLower_idem c

/-- C2: `detectIntent` equals the claim-side classifier — lower-case the
input, score each of the eight intents by the summed character lengths of
its substring-matching keywords, let the strictly highest total win with
ties and the all-zero case falling to the first intent in enumeration
order (`fix`) — and is invariant under pre-lower-casing, hence a pure
function of the lower-cased input; totality and the eight-valued range
are carried by the Lean type. -/
theorem detectIntent_matches_spec (input : String) :
    RuleEngine.detectIntent input = classifySpec input ∧
    RuleEngine.detectIntent (lowerS input) = RuleEngine.detectIntent input := by
  constructor
  · unfold RuleEngine.detectIntent classifySpec
    simp only
    rw [foldl_pairs_eq (lowerL input.data) (intentScore input) INTENT_KEYWORDS
      (TaskIntent.fix, 0) ?_]
    · have hmap : INTENT_KEYWORDS.map Prod.fst = intentOrder := by rfl
      rw [hmap]
      by_cases hz : maxIntentScore input = 0
      · have hge : (intentOrder.map (intentScore input)).foldr Nat.max 0 ≤ 0 := by
          unfold maxIntentScore at hz
          omega
        rw [foldl_argmax_ge (intentScore input) intentOrder TaskIntent.fix 0 hge]
        have hfix : Nat.ble (maxIntentScore input)
            (intentScore input TaskIntent.fix) = true := by
          rw [Nat.ble_eq]
          omega
        rw [show intentOrder.find?
            (fun i => Nat.ble (maxIntentScore input) (intentScore input i)) =
            some TaskIntent.fix from List.find?_cons_of_pos _ hfix]
      · have hlt : 0 < (intentOrder.map (intentScore input)).foldr Nat.max 0 := by
          unfold maxIntentScore at hz
          omega
        obtain ⟨i, hfind, hfold⟩ :=
          foldl_argmax_lt (intentScore input) intentOrder TaskIntent.fix 0 hlt
        rw [hfold]
        have : intentOrder.find?
            (fun i => Nat.ble (maxIntentScore input) (intentScore input i)) =
            some i := hfind
        rw [this]
    · intro p hp
      fin_cases hp <;>
        · rw [foldl_if_add_eq_sum (fun kw => kw.data.length)
            (fun kw => containsL (lowerL input.data) kw.data)]
          simp only [Nat.zero_add]
          rfl
  · unfold RuleEngine.detectIntent
    rw [show (lowerS input).data = lowerL input.data from rfl, lowerL_idem]

/-! ## Claim C7 -/

/-- C7: `expandWords` walks its mapping keys in stable length-descending
order — so a shorter key never pre-empts a longer overlapping key — and
replaces only whole-word, case-insensitive occurrences: `"btn"` (in any
case) becomes `"button"`, while `"subtle"` and `"btn5"`, which contain no
word-bounded key, are returned unchanged. -/
theorem expandWords_word_boundary :
    List.Pairwise (fun a b => b.1.data.length ≤ a.1.data.length)
      RuleEngine.sortedExpansions ∧
    RuleEngine.expandWords "btn" = "button" ∧
    RuleEngine.expandWords "BTN" = "button" ∧
    RuleEngine.expandWords "subtle" = "subtle" ∧
    RuleEngine.expandWords "btn5" = "btn5" := by
  refine ⟨by decide, by decide, by decide, by decide, by decide⟩

/-! ## Claim C8 -/

theorem char_toUpper_not_lower (c : Char) : (c.toUpper).isLower = false := by
  rw [Char.toUpper]
  split
  · rename_i h
    obtain ⟨h1, h2⟩ := h
    generalize c.toNat = n at h1 h2 ⊢
    interval_cases n <;> decide
  · rename_i h
    rw [Char.isLower]
    by_contra hb
    rw [Bool.not_eq_false, Bool.and_eq_true, decide_eq_true_eq,
      decide_eq_true_eq] at hb
    apply h
    constructor
    · exact UInt32.le_toNat_of_le (by norm_num) hb.1
    · exact UInt32.toNat_le_of_le (by norm_num) hb.2

theorem char_toUpper_of_not_alpha {c : Char} (h : c.isAlpha = false) :
    c.toUpper = c := by
  rw [Char.toUpper]
  split
  · rename_i hc
    exfalso
    rw [Char.isAlpha, Char.isLower, Bool.or_eq_false_iff,
      Bool.and_eq_false_iff] at h
    simp only [Char.toNat] at hc
    rcases h.2 with h2 | h2 <;> rw [decide_eq_false_iff_not] at h2 <;> apply h2
    · by_contra hlt
      rw [UInt32.not_le] at hlt
      have := @UInt32.toNat_lt_of_lt c.val 97 (by norm_num) hlt
      omega
    · by_contra hlt
      rw [UInt32.not_le] at hlt
      have := @UInt32.lt_toNat_of_lt c.val 122 (by norm_num) hlt
      omega
  · rfl

theorem rule5_last_not_alpha (y : List Char) :
    ((rule5 y).getLast?.all (fun c => !c.isAlpha)) = true := by
  unfold rule5
  cases hl : y.getLast? with
  | none =>
    dsimp only
    rw [hl]
    rfl
  | some c =>
    dsimp only
    by_cases ha : c.isAlpha = true
    · rw [if_pos ha]
      have hlast : (y ++ ['.']).getLast? = some '.' := by
        rw [List.getLast?_append_of_ne_nil _ (by simp)]
        rfl
      rw [hlast]
      rfl
    · rw [if_neg ha, hl]
      simpa using ha

theorem capFirst_last_not_alpha (z : List Char)
    (h : (z.getLast?.all (fun c => !c.isAlpha)) = true) :
    ((capFirst z).getLast?.all (fun c => !c.isAlpha)) = true := by
  cases z with
  | nil => rfl
  | cons c cs =>
    cases cs with
    | nil =>
      simp only [capFirst, List.getLast?_singleton, Option.all_some] at h ⊢
      rw [char_toUpper_of_not_alpha (by simp_all)]
      exact h
    | cons d ds =>
      simp only [capFirst, List.getLast?_cons_cons] at h ⊢
      exact h

/-- C8, counterexample to the claim as stated: `improveStructure "5"`
returns `"5"`, which neither starts with an uppercase letter nor ends
with terminal punctuation (the period is appended only after an
alphabetic final character, and only an alphabetic first character is
upper-cased). -/
theorem improveStructure_counterexample :
    RuleEngine.improveStructure "5" = "5" ∧
    ((RuleEngine.improveStructure "5").data.head?.any Char.isUpper) = false ∧
    ((RuleEngine.improveStructure "5").data.getLast?.any
      (fun c => c = '.' || c = '!' || c = '?')) = false := by
  refine ⟨by decide, by decide, by decide⟩

/-- C8, amended: `improveStructure` applies its five rewrite rules in
order, each to the previous rule's output, then upper-cases the first
character; consequently the result never starts with a lowercase letter
and never ends with a letter (a period is appended exactly when the text
after the rewrites ends with a letter) — but a non-alphabetic first or
last character is left as it is.  On the spec's example,
`improveStructure "button not work" = "Button is not working correctly."`. -/
theorem improveStructure_corrected (s : String) :
    RuleEngine.improveStructure s =
      ⟨capFirst (rule5 (rule4 (rule3 (rule2 (rule1 s.data)))))⟩ ∧
    ((RuleEngine.improveStructure s).data.head?.all (fun c => !c.isLower))
      = true ∧
    ((RuleEngine.improveStructure s).data.getLast?.all (fun c => !c.isAlpha))
      = true ∧
    RuleEngine.improveStructure "button not work" =
      "Button is not working correctly." := by
  refine ⟨rfl, ?_, ?_, by decide⟩
  · show ((capFirst (rule5 (rule4 (rule3 (rule2 (rule1 s.data)))))).head?.all
      (fun c => !c.isLower)) = true
    cases hz : rule5 (rule4 (rule3 (rule2 (rule1 s.data)))) with
    | nil => rfl
    | cons c cs =>
      simp only [capFirst, List.head?_cons, Option.all_some]
      rw [Bool.not_eq_true']
      exact char_toUpper_not_lower c
  · show ((capFirst (rule5 (rule4 (rule3 (rule2 (rule1 s.data)))))).getLast?.all
      (fun c => !c.isAlpha)) = true
    exact capFirst_last_not_alpha _ (rule5_last_not_alpha _)

/-! ## Claim C9 -/

theorem foldl_append_filter {α β : Type} (P : α → Bool) (f : α → List β) :
    ∀ (l : List α) (acc : List β),
      l.foldl (fun a m => if P m then a ++ f m else a) acc =
        acc ++ ((l.filter P).map f).flatten := by
  intro l
  induction l with
  | nil => intro acc; simp
  | cons m ms ih =>
    intro acc
    simp only [List.foldl_cons]
    by_cases hp : P m = true
    · rw [if_pos hp, ih, List.filter_cons_of_pos hp]
      simp
    · rw [if_neg hp, ih, List.filter_cons_of_neg (by simp [hp])]

/-- C9: the technical-term hints of `RuleEngine.enhance` are computed
from the original user input (not the expanded/restructured text), a
cluster contributing its terms when any trigger keyword is a
case-insensitive substring of that input, deduplicated preserving
first-seen order; and the final prompt carries the trailing
`*Related concepts: ...*` line exactly when that list is nonempty. -/
theorem technical_hints_spec (req : PromptRequest) :
    (RuleEngine.addTechnicalTerms req.userInput).2 = hintsSpec req.userInput ∧
    (RuleEngine.enhance req).prompt =
      RuleEngine.fillTemplate
        ((PROMPT_TEMPLATES.filter (fun t => t.intent == req.intent)).head?)
        (RuleEngine.improveStructure (RuleEngine.expandWords req.userInput))
        (RuleEngine.formatContext req) ++
      (if (hintsSpec req.userInput).isEmpty then ""
       else "\n\n*Related concepts: " ++
         (⟨joinSep ", ".data
           ((hintsSpec req.userInput).map String.data)⟩ : String) ++ "*") := by
  have hterms : (RuleEngine.addTechnicalTerms req.userInput).2 =
      hintsSpec req.userInput := by
    unfold RuleEngine.addTechnicalTerms hintsSpec
    simp only
    rw [foldl_append_filter
      (fun m => m.keywords.any
        (fun kw => containsL (lowerL req.userInput.data) kw.data))
      (fun m => m.technicalTerms) TECHNICAL_ENHANCEMENTS []]
    rfl
  refine ⟨hterms, ?_⟩
  show RuleEngine.fillTemplate (getTemplatesByIntent req.intent).head?
      (RuleEngine.improveStructure (RuleEngine.expandWords req.userInput))
      (RuleEngine.formatContext req) ++
    RuleEngine.hintSuffix (RuleEngine.addTechnicalTerms req.userInput).2 = _
  rw [hterms]
  rfl

/-! ## Claims C5 and C6: placeholder substitution -/

/-- Substituting a token that follows a brace-free segment. -/
theorem rf_fill_once {A b tok rep : List Char}
    (hhd : tok.head? = some '{') (hA : '{' ∈ A → False) (hne : tok ≠ []) :
    replaceFirstL tok rep (A ++ (tok ++ b)) = A ++ (rep ++ b) := by
  rw [replaceFirstL_skip (not_containsL_of_brace_free hhd hA)
    (fun t₁ t₂ hsp h1 h2 hst =>
      absurd (cross_left_brace hhd h1 ⟨t₂, hsp.symm⟩ hst.1) hA),
    replaceFirstL_hit hne]

/-- `replaceAllL` version of `rf_fill_once`. -/
theorem ra_fill_once {A b tok rep : List Char}
    (hhd : tok.head? = some '{') (hA : '{' ∈ A → False) (hne : tok ≠ []) :
    replaceAllL tok rep (A ++ (tok ++ b)) =
      A ++ (rep ++ replaceAllL tok rep b) := by
  rw [replaceAllL_skip (not_containsL_of_brace_free hhd hA)
    (fun t₁ t₂ hsp h1 h2 hst =>
      absurd (cross_left_brace hhd h1 ⟨t₂, hsp.symm⟩ hst.1) hA),
    replaceAllL_hit hne]

/-- Substituting a token after a region ending in a newline that does not
contain the token. -/
theorem rf_fill_ctx {A b tok rep : List Char}
    (hAc : containsL A tok = false) (hlast : A.getLast? = some '\n')
    (hnl : '\n' ∈ tok → False) (hne : tok ≠ []) :
    replaceFirstL tok rep (A ++ (tok ++ b)) = A ++ (rep ++ b) := by
  rw [replaceFirstL_skip hAc (fun t₁ t₂ hsp h1 h2 hst =>
      hnl ((List.IsPrefix.subset ⟨t₂, hsp.symm⟩)
        (cross_last_mem h1 hst.1 hlast))),
    replaceFirstL_hit hne]

/-- `replaceAllL` version of `rf_fill_ctx`. -/
theorem ra_fill_ctx {A b tok rep : List Char}
    (hAc : containsL A tok = false) (hlast : A.getLast? = some '\n')
    (hnl : '\n' ∈ tok → False) (hne : tok ≠ []) :
    replaceAllL tok rep (A ++ (tok ++ b)) =
      A ++ (rep ++ replaceAllL tok rep b) := by
  rw [replaceAllL_skip hAc (fun t₁ t₂ hsp h1 h2 hst =>
      hnl ((List.IsPrefix.subset ⟨t₂, hsp.symm⟩)
        (cross_last_mem h1 hst.1 hlast))),
    replaceAllL_hit hne]

/-- A token absent from every piece of the filled five-piece shape is not
replaced. -/
theorem rf_noop_five {tok A e B M C : List Char} (rep : List Char)
    (hhd : tok.head? = some '{') (hnl : '\n' ∈ tok → False)
    (hA : '{' ∈ A → False) (hB : '{' ∈ B → False) (hC : '{' ∈ C → False)
    (hBhd : B.head? = some '\n') (hChd : C.head? = some '\n')
    (he : containsL e tok = false) (hM : containsL M tok = false) :
    replaceFirstL tok rep (A ++ (e ++ (B ++ (M ++ C)))) =
      A ++ (e ++ (B ++ (M ++ C))) :=
  replaceFirstL_of_not_contains
    (notContains_five hhd hnl hA hB hC hBhd hChd he hM)

/-- `replaceAllL` version of `rf_noop_five`. -/
theorem ra_noop_five {tok A e B M C : List Char} (rep : List Char)
    (hhd : tok.head? = some '{') (hnl : '\n' ∈ tok → False)
    (hA : '{' ∈ A → False) (hB : '{' ∈ B → False) (hC : '{' ∈ C → False)
    (hBhd : B.head? = some '\n') (hChd : C.head? = some '\n')
    (he : containsL e tok = false) (hM : containsL M tok = false) :
    replaceAllL tok rep (A ++ (e ++ (B ++ (M ++ C)))) =
      A ++ (e ++ (B ++ (M ++ C))) :=
  replaceAllL_of_not_contains
    (notContains_five hhd hnl hA hB hC hBhd hChd he hM)

/-- The `{context}` substitution on the five-piece shape. -/
theorem rf_ctx_five {A e B C tok rep : List Char}
    (hhd : tok.head? = some '{') (hnl : '\n' ∈ tok → False) (hne : tok ≠ [])
    (hA : '{' ∈ A → False) (hB : '{' ∈ B → False)
    (hBhd : B.head? = some '\n') (hBlast : B.getLast? = some '\n')
    (hBne : B ≠ []) (he : containsL e tok = false) :
    replaceFirstL tok rep (A ++ (e ++ (B ++ (tok ++ C)))) =
      A ++ (e ++ (B ++ (rep ++ C))) := by
  have hassoc : A ++ (e ++ (B ++ (tok ++ C))) =
      (A ++ (e ++ B)) ++ (tok ++ C) := by
    simp [List.append_assoc]
  rw [hassoc]
  have hAc : containsL (A ++ (e ++ B)) tok = false :=
    notContains_three hhd hnl hA hB hBhd he
  have hlast : (A ++ (e ++ B)).getLast? = some '\n' := by
    rw [List.getLast?_append_of_ne_nil _ (by simp [hBne]),
      List.getLast?_append_of_ne_nil _ hBne]
    exact hBlast
  rw [rf_fill_ctx hAc hlast hnl hne]
  simp [List.append_assoc]

/-- `replaceAllL` version of `rf_ctx_five`; the trailing segment must be
free of the token so that the continued scan leaves it unchanged. -/
theorem ra_ctx_five {A e B C tok rep : List Char}
    (hhd : tok.head? = some '{') (hnl : '\n' ∈ tok → False) (hne : tok ≠ [])
    (hA : '{' ∈ A → False) (hB : '{' ∈ B → False)
    (hBhd : B.head? = some '\n') (hBlast : B.getLast? = some '\n')
    (hBne : B ≠ []) (he : containsL e tok = false)
    (hC : containsL C tok = false) :
    replaceAllL tok rep (A ++ (e ++ (B ++ (tok ++ C)))) =
      A ++ (e ++ (B ++ (rep ++ C))) := by
  have hassoc : A ++ (e ++ (B ++ (tok ++ C))) =
      (A ++ (e ++ B)) ++ (tok ++ C) := by
    simp [List.append_assoc]
  rw [hassoc]
  have hAc : containsL (A ++ (e ++ B)) tok = false :=
    notContains_three hhd hnl hA hB hBhd he
  have hlast : (A ++ (e ++ B)).getLast? = some '\n' := by
    rw [List.getLast?_append_of_ne_nil _ (by simp [hBne]),
      List.getLast?_append_of_ne_nil _ hBne]
    exact hBlast
  rw [ra_fill_ctx hAc hlast hnl hne, replaceAllL_of_not_contains hC]
  simp [List.append_assoc]

/-- Unfolding `claimFill` on a `some` head whose template text is `T`. -/
theorem claimFill_data (t? : Option PromptTemplate) (t : PromptTemplate) (T : List Char)
    (hh : t? = some t) (hd : t.template.data = T) (e c : String) :
    (claimFill t? e c).data =
      replaceAllL "{context}".data c.data
      (replaceAllL "{scenario}".data e.data
      (replaceAllL "{changes}".data e.data
      (replaceAllL "{goal}".data e.data
      (replaceAllL "{description}".data e.data
      (replaceAllL "{feature}".data e.data
      (replaceAllL "{error}".data e.data
      (replaceAllL "{issue}".data e.data T))))))) := by
  subst hh
  show replaceAllL "{context}".data c.data
      (replaceAllL "{scenario}".data e.data
      (replaceAllL "{changes}".data e.data
      (replaceAllL "{goal}".data e.data
      (replaceAllL "{description}".data e.data
      (replaceAllL "{feature}".data e.data
      (replaceAllL "{error}".data e.data
      (replaceAllL "{issue}".data e.data t.template.data))))))) = _
  rw [hd]

/-! ### Per-intent fill equations -/

theorem code_fill_fix (e c : String)
    (he : ∀ tok ∈ placeholderTokens, containsL e.data tok.data = false) :
    (RuleEngine.fillTemplate (getTemplatesByIntent TaskIntent.fix).head? e c).data =
      segFixA.data ++ (e.data ++ (segMid.data ++ (c.data ++ segFixC.data))) := by
  have h0 : (RuleEngine.fillTemplate (getTemplatesByIntent TaskIntent.fix).head? e c).data =
      replaceFirstL "{context}".data c.data
      (replaceFirstL "{scenario}".data e.data
      (replaceFirstL "{changes}".data e.data
      (replaceFirstL "{goal}".data e.data
      (replaceFirstL "{description}".data e.data
      (replaceFirstL "{feature}".data e.data
      (replaceFirstL "{error}".data e.data
      (replaceFirstL "{issue}".data e.data
      (segFixA.data ++ ("{issue}".data ++ (segMid.data ++ ("{context}".data ++ segFixC.data))))))))))) := rfl
  have phit : replaceFirstL "{issue}".data e.data
      (segFixA.data ++ ("{issue}".data ++ (segMid.data ++ ("{context}".data ++ segFixC.data)))) = segFixA.data ++ (e.data ++ (segMid.data ++ ("{context}".data ++ segFixC.data))) :=
    rf_fill_once rfl (by decide) (by decide)
  have s0 : replaceFirstL "{error}".data e.data
      (segFixA.data ++ (e.data ++ (segMid.data ++ ("{context}".data ++ segFixC.data)))) = segFixA.data ++ (e.data ++ (segMid.data ++ ("{context}".data ++ segFixC.data))) :=
    rf_noop_five e.data rfl (by decide) (by decide) (by decide) (by decide)
      rfl rfl (he "{error}" (by decide)) (by decide)
  have s1 : replaceFirstL "{feature}".data e.data
      (segFixA.data ++ (e.data ++ (segMid.data ++ ("{context}".data ++ segFixC.data)))) = segFixA.data ++ (e.data ++ (segMid.data ++ ("{context}".data ++ segFixC.data))) :=
    rf_noop_five e.data rfl (by decide) (by decide) (by decide) (by decide)
      rfl rfl (he "{feature}" (by decide)) (by decide)
  have s2 : replaceFirstL "{description}".data e.data
      (segFixA.data ++ (e.data ++ (segMid.data ++ ("{context}".data ++ segFixC.data)))) = segFixA.data ++ (e.data ++ (segMid.data ++ ("{context}".data ++ segFixC.data))) :=
    rf_noop_five e.data rfl (by decide) (by decide) (by decide) (by decide)
      rfl rfl (he "{description}" (by decide)) (by decide)
  have s3 : replaceFirstL "{goal}".data e.data
      (segFixA.data ++ (e.data ++ (segMid.data ++ ("{context}".data ++ segFixC.data)))) = segFixA.data ++ (e.data ++ (segMid.data ++ ("{context}".data ++ segFixC.data))) :=
    rf_noop_five e.data rfl (by decide) (by decide) (by decide) (by decide)
      rfl rfl (he "{goal}" (by decide)) (by decide)
  have s4 : replaceFirstL "{changes}".data e.data
      (segFixA.data ++ (e.data ++ (segMid.data ++ ("{context}".data ++ segFixC.data)))) = segFixA.data ++ (e.data ++ (segMid.data ++ ("{context}".data ++ segFixC.data))) :=
    rf_noop_five e.data rfl (by decide) (by decide) (by decide) (by decide)
      rfl rfl (he "{changes}" (by decide)) (by decide)
  have s5 : replaceFirstL "{scenario}".data e.data
      (segFixA.data ++ (e.data ++ (segMid.data ++ ("{context}".data ++ segFixC.data)))) = segFixA.data ++ (e.data ++ (segMid.data ++ ("{context}".data ++ segFixC.data))) :=
    rf_noop_five e.data rfl (by decide) (by decide) (by decide) (by decide)
      rfl rfl (he "{scenario}" (by decide)) (by decide)
  have sc : replaceFirstL "{context}".data c.data
      (segFixA.data ++ (e.data ++ (segMid.data ++ ("{context}".data ++ segFixC.data)))) = segFixA.data ++ (e.data ++ (segMid.data ++ (c.data ++ segFixC.data))) :=
    rf_ctx_five rfl (by decide) (by decide) (by decide) (by decide)
      rfl rfl (by decide) (he "{context}" (by decide))
  rw [h0, phit, s0, s1, s2, s3, s4, s5, sc]

theorem claim_fill_fix (e c : String)
    (he : ∀ tok ∈ placeholderTokens, containsL e.data tok.data = false) :
    (claimFill (getTemplatesByIntent TaskIntent.fix).head? e c).data =
      segFixA.data ++ (e.data ++ (segMid.data ++ (c.data ++ segFixC.data))) := by
  have h0 : (claimFill (getTemplatesByIntent TaskIntent.fix).head? e c).data =
      replaceAllL "{context}".data c.data
      (replaceAllL "{scenario}".data e.data
      (replaceAllL "{changes}".data e.data
      (replaceAllL "{goal}".data e.data
      (replaceAllL "{description}".data e.data
      (replaceAllL "{feature}".data e.data
      (replaceAllL "{error}".data e.data
      (replaceAllL "{issue}".data e.data
      (segFixA.data ++ ("{issue}".data ++ (segMid.data ++ ("{context}".data ++ segFixC.data))))))))))) :=
    claimFill_data _ _ _ rfl (by decide) e c
  have phit : replaceAllL "{issue}".data e.data
      (segFixA.data ++ ("{issue}".data ++ (segMid.data ++ ("{context}".data ++ segFixC.data)))) = segFixA.data ++ (e.data ++ (segMid.data ++ ("{context}".data ++ segFixC.data))) := by
    have q1 : replaceAllL "{issue}".data e.data
        (segFixA.data ++ ("{issue}".data ++ (segMid.data ++ ("{context}".data ++ segFixC.data)))) =
        segFixA.data ++ (e.data ++ replaceAllL "{issue}".data e.data
          (segMid.data ++ ("{context}".data ++ segFixC.data))) :=
      ra_fill_once rfl (by decide) (by decide)
    have q2 : replaceAllL "{issue}".data e.data
        (segMid.data ++ ("{context}".data ++ segFixC.data)) = segMid.data ++ ("{context}".data ++ segFixC.data) :=
      replaceAllL_of_not_contains (by decide)
    rw [q1, q2]
  have s0 : replaceAllL "{error}".data e.data
      (segFixA.data ++ (e.data ++ (segMid.data ++ ("{context}".data ++ segFixC.data)))) = segFixA.data ++ (e.data ++ (segMid.data ++ ("{context}".data ++ segFixC.data))) :=
    ra_noop_five e.data rfl (by decide) (by decide) (by decide) (by decide)
      rfl rfl (he "{error}" (by decide)) (by decide)
  have s1 : replaceAllL "{feature}".data e.data
      (segFixA.data ++ (e.data ++ (segMid.data ++ ("{context}".data ++ segFixC.data)))) = segFixA.data ++ (e.data ++ (segMid.data ++ ("{context}".data ++ segFixC.data))) :=
    ra_noop_five e.data rfl (by decide) (by decide) (by decide) (by decide)
      rfl rfl (he "{feature}" (by decide)) (by decide)
  have s2 : replaceAllL "{description}".data e.data
      (segFixA.data ++ (e.data ++ (segMid.data ++ ("{context}".data ++ segFixC.data)))) = segFixA.data ++ (e.data ++ (segMid.data ++ ("{context}".data ++ segFixC.data))) :=
    ra_noop_five e.data rfl (by decide) (by decide) (by decide) (by decide)
      rfl rfl (he "{description}" (by decide)) (by decide)
  have s3 : replaceAllL "{goal}".data e.data
      (segFixA.data ++ (e.data ++ (segMid.data ++ ("{context}".data ++ segFixC.data)))) = segFixA.data ++ (e.data ++ (segMid.data ++ ("{context}".data ++ segFixC.data))) :=
    ra_noop_five e.data rfl (by decide) (by decide) (by decide) (by decide)
      rfl rfl (he "{goal}" (by decide)) (by decide)
  have s4 : replaceAllL "{changes}".data e.data
      (segFixA.data ++ (e.data ++ (segMid.data ++ ("{context}".data ++ segFixC.data)))) = segFixA.data ++ (e.data ++ (segMid.data ++ ("{context}".data ++ segFixC.data))) :=
    ra_noop_five e.data rfl (by decide) (by decide) (by decide) (by decide)
      rfl rfl (he "{changes}" (by decide)) (by decide)
  have s5 : replaceAllL "{scenario}".data e.data
      (segFixA.data ++ (e.data ++ (segMid.data ++ ("{context}".data ++ segFixC.data)))) = segFixA.data ++ (e.data ++ (segMid.data ++ ("{context}".data ++ segFixC.data))) :=
    ra_noop_five e.data rfl (by decide) (by decide) (by decide) (by decide)
      rfl rfl (he "{scenario}" (by decide)) (by decide)
  have sc : replaceAllL "{context}".data c.data
      (segFixA.data ++ (e.data ++ (segMid.data ++ ("{context}".data ++ segFixC.data)))) = segFixA.data ++ (e.data ++ (segMid.data ++ (c.data ++ segFixC.data))) :=
    ra_ctx_five rfl (by decide) (by decide) (by decide) (by decide)
      rfl rfl (by decide) (he "{context}" (by decide)) (by decide)
  rw [h0, phit, s0, s1, s2, s3, s4, s5, sc]

theorem code_fill_add (e c : String)
    (he : ∀ tok ∈ placeholderTokens, containsL e.data tok.data = false) :
    (RuleEngine.fillTemplate (getTemplatesByIntent TaskIntent.add).head? e c).data =
      segAddA.data ++ (e.data ++ (segMid.data ++ (c.data ++ segAddC.data))) := by
  have h0 : (RuleEngine.fillTemplate (getTemplatesByIntent TaskIntent.add).head? e c).data =
      replaceFirstL "{context}".data c.data
      (replaceFirstL "{scenario}".data e.data
      (replaceFirstL "{changes}".data e.data
      (replaceFirstL "{goal}".data e.data
      (replaceFirstL "{description}".data e.data
      (replaceFirstL "{feature}".data e.data
      (replaceFirstL "{error}".data e.data
      (replaceFirstL "{issue}".data e.data
      (segAddA.data ++ ("{feature}".data ++ (segMid.data ++ ("{context}".data ++ segAddC.data))))))))))) := rfl
  have p0 : replaceFirstL "{issue}".data e.data
      (segAddA.data ++ ("{feature}".data ++ (segMid.data ++ ("{context}".data ++ segAddC.data)))) = segAddA.data ++ ("{feature}".data ++ (segMid.data ++ ("{context}".data ++ segAddC.data))) :=
    replaceFirstL_of_not_contains (by decide)
  have p1 : replaceFirstL "{error}".data e.data
      (segAddA.data ++ ("{feature}".data ++ (segMid.data ++ ("{context}".data ++ segAddC.data)))) = segAddA.data ++ ("{feature}".data ++ (segMid.data ++ ("{context}".data ++ segAddC.data))) :=
    replaceFirstL_of_not_contains (by decide)
  have phit : replaceFirstL "{feature}".data e.data
      (segAddA.data ++ ("{feature}".data ++ (segMid.data ++ ("{context}".data ++ segAddC.data)))) = segAddA.data ++ (e.data ++ (segMid.data ++ ("{context}".data ++ segAddC.data))) :=
    rf_fill_once rfl (by decide) (by decide)
  have s0 : replaceFirstL "{description}".data e.data
      (segAddA.data ++ (e.data ++ (segMid.data ++ ("{context}".data ++ segAddC.data)))) = segAddA.data ++ (e.data ++ (segMid.data ++ ("{context}".data ++ segAddC.data))) :=
    rf_noop_five e.data rfl (by decide) (by decide) (by decide) (by decide)
      rfl rfl (he "{description}" (by decide)) (by decide)
  have s1 : replaceFirstL "{goal}".data e.data
      (segAddA.data ++ (e.data ++ (segMid.data ++ ("{context}".data ++ segAddC.data)))) = segAddA.data ++ (e.data ++ (segMid.data ++ ("{context}".data ++ segAddC.data))) :=
    rf_noop_five e.data rfl (by decide) (by decide) (by decide) (by decide)
      rfl rfl (he "{goal}" (by decide)) (by decide)
  have s2 : replaceFirstL "{changes}".data e.data
      (segAddA.data ++ (e.data ++ (segMid.data ++ ("{context}".data ++ segAddC.data)))) = segAddA.data ++ (e.data ++ (segMid.data ++ ("{context}".data ++ segAddC.data))) :=
    rf_noop_five e.data rfl (by decide) (by decide) (by decide) (by decide)
      rfl rfl (he "{changes}" (by decide)) (by decide)
  have s3 : replaceFirstL "{scenario}".data e.data
      (segAddA.data ++ (e.data ++ (segMid.data ++ ("{context}".data ++ segAddC.data)))) = segAddA.data ++ (e.data ++ (segMid.data ++ ("{context}".data ++ segAddC.data))) :=
    rf_noop_five e.data rfl (by decide) (by decide) (by decide) (by decide)
      rfl rfl (he "{scenario}" (by decide)) (by decide)
  have sc : replaceFirstL "{context}".data c.data
      (segAddA.data ++ (e.data ++ (segMid.data ++ ("{context}".data ++ segAddC.data)))) = segAddA.data ++ (e.data ++ (segMid.data ++ (c.data ++ segAddC.data))) :=
    rf_ctx_five rfl (by decide) (by decide) (by decide) (by decide)
      rfl rfl (by decide) (he "{context}" (by decide))
  rw [h0, p0, p1, phit, s0, s1, s2, s3, sc]

theorem claim_fill_add (e c : String)
    (he : ∀ tok ∈ placeholderTokens, containsL e.data tok.data = false) :
    (claimFill (getTemplatesByIntent TaskIntent.add).head? e c).data =
      segAddA.data ++ (e.data ++ (segMid.data ++ (c.data ++ segAddC.data))) := by
  have h0 : (claimFill (getTemplatesByIntent TaskIntent.add).head? e c).data =
      replaceAllL "{context}".data c.data
      (replaceAllL "{scenario}".data e.data
      (replaceAllL "{changes}".data e.data
      (replaceAllL "{goal}".data e.data
      (replaceAllL "{description}".data e.data
      (replaceAllL "{feature}".data e.data
      (replaceAllL "{error}".data e.data
      (replaceAllL "{issue}".data e.data
      (segAddA.data ++ ("{feature}".data ++ (segMid.data ++ ("{context}".data ++ segAddC.data))))))))))) :=
    claimFill_data _ _ _ rfl (by decide) e c
  have p0 : replaceAllL "{issue}".data e.data
      (segAddA.data ++ ("{feature}".data ++ (segMid.data ++ ("{context}".data ++ segAddC.data)))) = segAddA.data ++ ("{feature}".data ++ (segMid.data ++ ("{context}".data ++ segAddC.data))) :=
    replaceAllL_of_not_contains (by decide)
  have p1 : replaceAllL "{error}".data e.data
      (segAddA.data ++ ("{feature}".data ++ (segMid.data ++ ("{context}".data ++ segAddC.data)))) = segAddA.data ++ ("{feature}".data ++ (segMid.data ++ ("{context}".data ++ segAddC.data))) :=
    replaceAllL_of_not_contains (by decide)
  have phit : replaceAllL "{feature}".data e.data
      (segAddA.data ++ ("{feature}".data ++ (segMid.data ++ ("{context}".data ++ segAddC.data)))) = segAddA.data ++ (e.data ++ (segMid.data ++ ("{context}".data ++ segAddC.data))) := by
    have q1 : replaceAllL "{feature}".data e.data
        (segAddA.data ++ ("{feature}".data ++ (segMid.data ++ ("{context}".data ++ segAddC.data)))) =
        segAddA.data ++ (e.data ++ replaceAllL "{feature}".data e.data
          (segMid.data ++ ("{context}".data ++ segAddC.data))) :=
      ra_fill_once rfl (by decide) (by decide)
    have q2 : replaceAllL "{feature}".data e.data
        (segMid.data ++ ("{context}".data ++ segAddC.data)) = segMid.data ++ ("{context}".data ++ segAddC.data) :=
      replaceAllL_of_not_contains (by decide)
    rw [q1, q2]
  have s0 : replaceAllL "{description}".data e.data
      (segAddA.data ++ (e.data ++ (segMid.data ++ ("{context}".data ++ segAddC.data)))) = segAddA.data ++ (e.data ++ (segMid.data ++ ("{context}".data ++ segAddC.data))) :=
    ra_noop_five e.data rfl (by decide) (by decide) (by decide) (by decide)
      rfl rfl (he "{description}" (by decide)) (by decide)
  have s1 : replaceAllL "{goal}".data e.data
      (segAddA.data ++ (e.data ++ (segMid.data ++ ("{context}".data ++ segAddC.data)))) = segAddA.data ++ (e.data ++ (segMid.data ++ ("{context}".data ++ segAddC.data))) :=
    ra_noop_five e.data rfl (by decide) (by decide) (by decide) (by decide)
      rfl rfl (he "{goal}" (by decide)) (by decide)
  have s2 : replaceAllL "{changes}".data e.data
      (segAddA.data ++ (e.data ++ (segMid.data ++ ("{context}".data ++ segAddC.data)))) = segAddA.data ++ (e.data ++ (segMid.data ++ ("{context}".data ++ segAddC.data))) :=
    ra_noop_five e.data rfl (by decide) (by decide) (by decide) (by decide)
      rfl rfl (he "{changes}" (by decide)) (by decide)
  have s3 : replaceAllL "{scenario}".data e.data
      (segAddA.data ++ (e.data ++ (segMid.data ++ ("{context}".data ++ segAddC.data)))) = segAddA.data ++ (e.data ++ (segMid.data ++ ("{context}".data ++ segAddC.data))) :=
    ra_noop_five e.data rfl (by decide) (by decide) (by decide) (by decide)
      rfl rfl (he "{scenario}" (by decide)) (by decide)
  have sc : replaceAllL "{context}".data c.data
      (segAddA.data ++ (e.data ++ (segMid.data ++ ("{context}".data ++ segAddC.data)))) = segAddA.data ++ (e.data ++ (segMid.data ++ (c.data ++ segAddC.data))) :=
    ra_ctx_five rfl (by decide) (by decide) (by decide) (by decide)
      rfl rfl (by decide) (he "{context}" (by decide)) (by decide)
  rw [h0, p0, p1, phit, s0, s1, s2, s3, sc]

theorem code_fill_change (e c : String)
    (he : ∀ tok ∈ placeholderTokens, containsL e.data tok.data = false) :
    (RuleEngine.fillTemplate (getTemplatesByIntent TaskIntent.change).head? e c).data =
      segChangeA.data ++ (e.data ++ (segMid.data ++ (c.data ++ segChangeC.data))) := by
  have h0 : (RuleEngine.fillTemplate (getTemplatesByIntent TaskIntent.change).head? e c).data =
      replaceFirstL "{context}".data c.data
      (replaceFirstL "{scenario}".data e.data
      (replaceFirstL "{changes}".data e.data
      (replaceFirstL "{goal}".data e.data
      (replaceFirstL "{description}".data e.data
      (replaceFirstL "{feature}".data e.data
      (replaceFirstL "{error}".data e.data
      (replaceFirstL "{issue}".data e.data
      (segChangeA.data ++ ("{goal}".data ++ (segMid.data ++ ("{context}".data ++ segChangeC.data))))))))))) := rfl
  have p0 : replaceFirstL "{issue}".data e.data
      (segChangeA.data ++ ("{goal}".data ++ (segMid.data ++ ("{context}".data ++ segChangeC.data)))) = segChangeA.data ++ ("{goal}".data ++ (segMid.data ++ ("{context}".data ++ segChangeC.data))) :=
    replaceFirstL_of_not_contains (by decide)
  have p1 : replaceFirstL "{error}".data e.data
      (segChangeA.data ++ ("{goal}".data ++ (segMid.data ++ ("{context}".data ++ segChangeC.data)))) = segChangeA.data ++ ("{goal}".data ++ (segMid.data ++ ("{context}".data ++ segChangeC.data))) :=
    replaceFirstL_of_not_contains (by decide)
  have p2 : replaceFirstL "{feature}".data e.data
      (segChangeA.data ++ ("{goal}".data ++ (segMid.data ++ ("{context}".data ++ segChangeC.data)))) = segChangeA.data ++ ("{goal}".data ++ (segMid.data ++ ("{context}".data ++ segChangeC.data))) :=
    replaceFirstL_of_not_contains (by decide)
  have p3 : replaceFirstL "{description}".data e.data
      (segChangeA.data ++ ("{goal}".data ++ (segMid.data ++ ("{context}".data ++ segChangeC.data)))) = segChangeA.data ++ ("{goal}".data ++ (segMid.data ++ ("{context}".data ++ segChangeC.data))) :=
    replaceFirstL_of_not_contains (by decide)
  have phit : replaceFirstL "{goal}".data e.data
      (segChangeA.data ++ ("{goal}".data ++ (segMid.data ++ ("{context}".data ++ segChangeC.data)))) = segChangeA.data ++ (e.data ++ (segMid.data ++ ("{context}".data ++ segChangeC.data))) :=
    rf_fill_once rfl (by decide) (by decide)
  have s0 : replaceFirstL "{changes}".data e.data
      (segChangeA.data ++ (e.data ++ (segMid.data ++ ("{context}".data ++ segChangeC.data)))) = segChangeA.data ++ (e.data ++ (segMid.data ++ ("{context}".data ++ segChangeC.data))) :=
    rf_noop_five e.data rfl (by decide) (by decide) (by decide) (by decide)
      rfl rfl (he "{changes}" (by decide)) (by decide)
  have s1 : replaceFirstL "{scenario}".data e.data
      (segChangeA.data ++ (e.data ++ (segMid.data ++ ("{context}".data ++ segChangeC.data)))) = segChangeA.data ++ (e.data ++ (segMid.data ++ ("{context}".data ++ segChangeC.data))) :=
    rf_noop_five e.data rfl (by decide) (by decide) (by decide) (by decide)
      rfl rfl (he "{scenario}" (by decide)) (by decide)
  have sc : replaceFirstL "{context}".data c.data
      (segChangeA.data ++ (e.data ++ (segMid.data ++ ("{context}".data ++ segChangeC.data)))) = segChangeA.data ++ (e.data ++ (segMid.data ++ (c.data ++ segChangeC.data))) :=
    rf_ctx_five rfl (by decide) (by decide) (by decide) (by decide)
      rfl rfl (by decide) (he "{context}" (by decide))
  rw [h0, p0, p1, p2, p3, phit, s0, s1, sc]

theorem claim_fill_change (e c : String)
    (he : ∀ tok ∈ placeholderTokens, containsL e.data tok.data = false) :
    (claimFill (getTemplatesByIntent TaskIntent.change).head? e c).data =
      segChangeA.data ++ (e.data ++ (segMid.data ++ (c.data ++ segChangeC.data))) := by
  have h0 : (claimFill (getTemplatesByIntent TaskIntent.change).head? e c).data =
      replaceAllL "{context}".data c.data
      (replaceAllL "{scenario}".data e.data
      (replaceAllL "{changes}".data e.data
      (replaceAllL "{goal}".data e.data
      (replaceAllL "{description}".data e.data
      (replaceAllL "{feature}".data e.data
      (replaceAllL "{error}".data e.data
      (replaceAllL "{issue}".data e.data
      (segChangeA.data ++ ("{goal}".data ++ (segMid.data ++ ("{context}".data ++ segChangeC.data))))))))))) :=
    claimFill_data _ _ _ rfl (by decide) e c
  have p0 : replaceAllL "{issue}".data e.data
      (segChangeA.data ++ ("{goal}".data ++ (segMid.data ++ ("{context}".data ++ segChangeC.data)))) = segChangeA.data ++ ("{goal}".data ++ (segMid.data ++ ("{context}".data ++ segChangeC.data))) :=
    replaceAllL_of_not_contains (by decide)
  have p1 : replaceAllL "{error}".data e.data
      (segChangeA.data ++ ("{goal}".data ++ (segMid.data ++ ("{context}".data ++ segChangeC.data)))) = segChangeA.data ++ ("{goal}".data ++ (segMid.data ++ ("{context}".data ++ segChangeC.data))) :=
    replaceAllL_of_not_contains (by decide)
  have p2 : replaceAllL "{feature}".data e.data
      (segChangeA.data ++ ("{goal}".data ++ (segMid.data ++ ("{context}".data ++ segChangeC.data)))) = segChangeA.data ++ ("{goal}".data ++ (segMid.data ++ ("{context}".data ++ segChangeC.data))) :=
    replaceAllL_of_not_contains (by decide)
  have p3 : replaceAllL "{description}".data e.data
      (segChangeA.data ++ ("{goal}".data ++ (segMid.data ++ ("{context}".data ++ segChangeC.data)))) = segChangeA.data ++ ("{goal}".data ++ (segMid.data ++ ("{context}".data ++ segChangeC.data))) :=
    replaceAllL_of_not_contains (by decide)
  have phit : replaceAllL "{goal}".data e.data
      (segChangeA.data ++ ("{goal}".data ++ (segMid.data ++ ("{context}".data ++ segChangeC.data)))) = segChangeA.data ++ (e.data ++ (segMid.data ++ ("{context}".data ++ segChangeC.data))) := by
    have q1 : replaceAllL "{goal}".data e.data
        (segChangeA.data ++ ("{goal}".data ++ (segMid.data ++ ("{context}".data ++ segChangeC.data)))) =
        segChangeA.data ++ (e.data ++ replaceAllL "{goal}".data e.data
          (segMid.data ++ ("{context}".data ++ segChangeC.data))) :=
      ra_fill_once rfl (by decide) (by decide)
    have q2 : replaceAllL "{goal}".data e.data
        (segMid.data ++ ("{context}".data ++ segChangeC.data)) = segMid.data ++ ("{context}".data ++ segChangeC.data) :=
      replaceAllL_of_not_contains (by decide)
    rw [q1, q2]
  have s0 : replaceAllL "{changes}".data e.data
      (segChangeA.data ++ (e.data ++ (segMid.data ++ ("{context}".data ++ segChangeC.data)))) = segChangeA.data ++ (e.data ++ (segMid.data ++ ("{context}".data ++ segChangeC.data))) :=
    ra_noop_five e.data rfl (by decide) (by decide) (by decide) (by decide)
      rfl rfl (he "{changes}" (by decide)) (by decide)
  have s1 : replaceAllL "{scenario}".data e.data
      (segChangeA.data ++ (e.data ++ (segMid.data ++ ("{context}".data ++ segChangeC.data)))) = segChangeA.data ++ (e.data ++ (segMid.data ++ ("{context}".data ++ segChangeC.data))) :=
    ra_noop_five e.data rfl (by decide) (by decide) (by decide) (by decide)
      rfl rfl (he "{scenario}" (by decide)) (by decide)
  have sc : replaceAllL "{context}".data c.data
      (segChangeA.data ++ (e.data ++ (segMid.data ++ ("{context}".data ++ segChangeC.data)))) = segChangeA.data ++ (e.data ++ (segMid.data ++ (c.data ++ segChangeC.data))) :=
    ra_ctx_five rfl (by decide) (by decide) (by decide) (by decide)
      rfl rfl (by decide) (he "{context}" (by decide)) (by decide)
  rw [h0, p0, p1, p2, p3, phit, s0, s1, sc]

theorem code_fill_explain (e c : String)
    (he : ∀ tok ∈ placeholderTokens, containsL e.data tok.data = false) :
    (RuleEngine.fillTemplate (getTemplatesByIntent TaskIntent.explain).head? e c).data =
      segExplainA.data ++ (c.data ++ segExplainC.data) := by
  have h0 : (RuleEngine.fillTemplate (getTemplatesByIntent TaskIntent.explain).head? e c).data =
      replaceFirstL "{context}".data c.data
      (replaceFirstL "{scenario}".data e.data
      (replaceFirstL "{changes}".data e.data
      (replaceFirstL "{goal}".data e.data
      (replaceFirstL "{description}".data e.data
      (replaceFirstL "{feature}".data e.data
      (replaceFirstL "{error}".data e.data
      (replaceFirstL "{issue}".data e.data
      (segExplainA.data ++ ("{context}".data ++ segExplainC.data))))))))) := rfl
  have p0 : replaceFirstL "{issue}".data e.data
      (segExplainA.data ++ ("{context}".data ++ segExplainC.data)) = segExplainA.data ++ ("{context}".data ++ segExplainC.data) :=
    replaceFirstL_of_not_contains (by decide)
  have p1 : replaceFirstL "{error}".data e.data
      (segExplainA.data ++ ("{context}".data ++ segExplainC.data)) = segExplainA.data ++ ("{context}".data ++ segExplainC.data) :=
    replaceFirstL_of_not_contains (by decide)
  have p2 : replaceFirstL "{feature}".data e.data
      (segExplainA.data ++ ("{context}".data ++ segExplainC.data)) = segExplainA.data ++ ("{context}".data ++ segExplainC.data) :=
    replaceFirstL_of_not_contains (by decide)
  have p3 : replaceFirstL "{description}".data e.data
      (segExplainA.data ++ ("{context}".data ++ segExplainC.data)) = segExplainA.data ++ ("{context}".data ++ segExplainC.data) :=
    replaceFirstL_of_not_contains (by decide)
  have p4 : replaceFirstL "{goal}".data e.data
      (segExplainA.data ++ ("{context}".data ++ segExplainC.data)) = segExplainA.data ++ ("{context}".data ++ segExplainC.data) :=
    replaceFirstL_of_not_contains (by decide)
  have p5 : replaceFirstL "{changes}".data e.data
      (segExplainA.data ++ ("{context}".data ++ segExplainC.data)) = segExplainA.data ++ ("{context}".data ++ segExplainC.data) :=
    replaceFirstL_of_not_contains (by decide)
  have p6 : replaceFirstL "{scenario}".data e.data
      (segExplainA.data ++ ("{context}".data ++ segExplainC.data)) = segExplainA.data ++ ("{context}".data ++ segExplainC.data) :=
    replaceFirstL_of_not_contains (by decide)
  have sc : replaceFirstL "{context}".data c.data
      (segExplainA.data ++ ("{context}".data ++ segExplainC.data)) = segExplainA.data ++ (c.data ++ segExplainC.data) :=
    rf_fill_once rfl (by decide) (by decide)
  rw [h0, p0, p1, p2, p3, p4, p5, p6, sc]

theorem claim_fill_explain (e c : String)
    (he : ∀ tok ∈ placeholderTokens, containsL e.data tok.data = false) :
    (claimFill (getTemplatesByIntent TaskIntent.explain).head? e c).data =
      segExplainA.data ++ (c.data ++ segExplainC.data) := by
  have h0 : (claimFill (getTemplatesByIntent TaskIntent.explain).head? e c).data =
      replaceAllL "{context}".data c.data
      (replaceAllL "{scenario}".data e.data
      (replaceAllL "{changes}".data e.data
      (replaceAllL "{goal}".data e.data
      (replaceAllL "{description}".data e.data
      (replaceAllL "{feature}".data e.data
      (replaceAllL "{error}".data e.data
      (replaceAllL "{issue}".data e.data
      (segExplainA.data ++ ("{context}".data ++ segExplainC.data))))))))) :=
    claimFill_data _ _ _ rfl (by decide) e c
  have p0 : replaceAllL "{issue}".data e.data
      (segExplainA.data ++ ("{context}".data ++ segExplainC.data)) = segExplainA.data ++ ("{context}".data ++ segExplainC.data) :=
    replaceAllL_of_not_contains (by decide)
  have p1 : replaceAllL "{error}".data e.data
      (segExplainA.data ++ ("{context}".data ++ segExplainC.data)) = segExplainA.data ++ ("{context}".data ++ segExplainC.data) :=
    replaceAllL_of_not_contains (by decide)
  have p2 : replaceAllL "{feature}".data e.data
      (segExplainA.data ++ ("{context}".data ++ segExplainC.data)) = segExplainA.data ++ ("{context}".data ++ segExplainC.data) :=
    replaceAllL_of_not_contains (by decide)
  have p3 : replaceAllL "{description}".data e.data
      (segExplainA.data ++ ("{context}".data ++ segExplainC.data)) = segExplainA.data ++ ("{context}".data ++ segExplainC.data) :=
    replaceAllL_of_not_contains (by decide)
  have p4 : replaceAllL "{goal}".data e.data
      (segExplainA.data ++ ("{context}".data ++ segExplainC.data)) = segExplainA.data ++ ("{context}".data ++ segExplainC.data) :=
    replaceAllL_of_not_contains (by decide)
  have p5 : replaceAllL "{changes}".data e.data
      (segExplainA.data ++ ("{context}".data ++ segExplainC.data)) = segExplainA.data ++ ("{context}".data ++ segExplainC.data) :=
    replaceAllL_of_not_contains (by decide)
  have p6 : replaceAllL "{scenario}".data e.data
      (segExplainA.data ++ ("{context}".data ++ segExplainC.data)) = segExplainA.data ++ ("{context}".data ++ segExplainC.data) :=
    replaceAllL_of_not_contains (by decide)
  have sc : replaceAllL "{context}".data c.data
      (segExplainA.data ++ ("{context}".data ++ segExplainC.data)) = segExplainA.data ++ (c.data ++ segExplainC.data) := by
    have q1 : replaceAllL "{context}".data c.data
        (segExplainA.data ++ ("{context}".data ++ segExplainC.data)) =
        segExplainA.data ++ (c.data ++ replaceAllL "{context}".data c.data segExplainC.data) :=
      ra_fill_once rfl (by decide) (by decide)
    have q2 : replaceAllL "{context}".data c.data segExplainC.data = segExplainC.data :=
      replaceAllL_of_not_contains (by decide)
    rw [q1, q2]
  rw [h0, p0, p1, p2, p3, p4, p5, p6, sc]

theorem code_fill_test (e c : String)
    (he : ∀ tok ∈ placeholderTokens, containsL e.data tok.data = false) :
    (RuleEngine.fillTemplate (getTemplatesByIntent TaskIntent.test).head? e c).data =
      segTestA.data ++ (c.data ++ segTestC.data) := by
  have h0 : (RuleEngine.fillTemplate (getTemplatesByIntent TaskIntent.test).head? e c).data =
      replaceFirstL "{context}".data c.data
      (replaceFirstL "{scenario}".data e.data
      (replaceFirstL "{changes}".data e.data
      (replaceFirstL "{goal}".data e.data
      (replaceFirstL "{description}".data e.data
      (replaceFirstL "{feature}".data e.data
      (replaceFirstL "{error}".data e.data
      (replaceFirstL "{issue}".data e.data
      (segTestA.data ++ ("{context}".data ++ segTestC.data))))))))) := rfl
  have p0 : replaceFirstL "{issue}".data e.data
      (segTestA.data ++ ("{context}".data ++ segTestC.data)) = segTestA.data ++ ("{context}".data ++ segTestC.data) :=
    replaceFirstL_of_not_contains (by decide)
  have p1 : replaceFirstL "{error}".data e.data
      (segTestA.data ++ ("{context}".data ++ segTestC.data)) = segTestA.data ++ ("{context}".data ++ segTestC.data) :=
    replaceFirstL_of_not_contains (by decide)
  have p2 : replaceFirstL "{feature}".data e.data
      (segTestA.data ++ ("{context}".data ++ segTestC.data)) = segTestA.data ++ ("{context}".data ++ segTestC.data) :=
    replaceFirstL_of_not_contains (by decide)
  have p3 : replaceFirstL "{description}".data e.data
      (segTestA.data ++ ("{context}".data ++ segTestC.data)) = segTestA.data ++ ("{context}".data ++ segTestC.data) :=
    replaceFirstL_of_not_contains (by decide)
  have p4 : replaceFirstL "{goal}".data e.data
      (segTestA.data ++ ("{context}".data ++ segTestC.data)) = segTestA.data ++ ("{context}".data ++ segTestC.data) :=
    replaceFirstL_of_not_contains (by decide)
  have p5 : replaceFirstL "{changes}".data e.data
      (segTestA.data ++ ("{context}".data ++ segTestC.data)) = segTestA.data ++ ("{context}".data ++ segTestC.data) :=
    replaceFirstL_of_not_contains (by decide)
  have p6 : replaceFirstL "{scenario}".data e.data
      (segTestA.data ++ ("{context}".data ++ segTestC.data)) = segTestA.data ++ ("{context}".data ++ segTestC.data) :=
    replaceFirstL_of_not_contains (by decide)
  have sc : replaceFirstL "{context}".data c.data
      (segTestA.data ++ ("{context}".data ++ segTestC.data)) = segTestA.data ++ (c.data ++ segTestC.data) :=
    rf_fill_once rfl (by decide) (by decide)
  rw [h0, p0, p1, p2, p3, p4, p5, p6, sc]

theorem claim_fill_test (e c : String)
    (he : ∀ tok ∈ placeholderTokens, containsL e.data tok.data = false) :
    (claimFill (getTemplatesByIntent TaskIntent.test).head? e c).data =
      segTestA.data ++ (c.data ++ segTestC.data) := by
  have h0 : (claimFill (getTemplatesByIntent TaskIntent.test).head? e c).data =
      replaceAllL "{context}".data c.data
      (replaceAllL "{scenario}".data e.data
      (replaceAllL "{changes}".data e.data
      (replaceAllL "{goal}".data e.data
      (replaceAllL "{description}".data e.data
      (replaceAllL "{feature}".data e.data
      (replaceAllL "{error}".data e.data
      (replaceAllL "{issue}".data e.data
      (segTestA.data ++ ("{context}".data ++ segTestC.data))))))))) :=
    claimFill_data _ _ _ rfl (by decide) e c
  have p0 : replaceAllL "{issue}".data e.data
      (segTestA.data ++ ("{context}".data ++ segTestC.data)) = segTestA.data ++ ("{context}".data ++ segTestC.data) :=
    replaceAllL_of_not_contains (by decide)
  have p1 : replaceAllL "{error}".data e.data
      (segTestA.data ++ ("{context}".data ++ segTestC.data)) = segTestA.data ++ ("{context}".data ++ segTestC.data) :=
    replaceAllL_of_not_contains (by decide)
  have p2 : replaceAllL "{feature}".data e.data
      (segTestA.data ++ ("{context}".data ++ segTestC.data)) = segTestA.data ++ ("{context}".data ++ segTestC.data) :=
    replaceAllL_of_not_contains (by decide)
  have p3 : replaceAllL "{description}".data e.data
      (segTestA.data ++ ("{context}".data ++ segTestC.data)) = segTestA.data ++ ("{context}".data ++ segTestC.data) :=
    replaceAllL_of_not_contains (by decide)
  have p4 : replaceAllL "{goal}".data e.data
      (segTestA.data ++ ("{context}".data ++ segTestC.data)) = segTestA.data ++ ("{context}".data ++ segTestC.data) :=
    replaceAllL_of_not_contains (by decide)
  have p5 : replaceAllL "{changes}".data e.data
      (segTestA.data ++ ("{context}".data ++ segTestC.data)) = segTestA.data ++ ("{context}".data ++ segTestC.data) :=
    replaceAllL_of_not_contains (by decide)
  have p6 : replaceAllL "{scenario}".data e.data
      (segTestA.data ++ ("{context}".data ++ segTestC.data)) = segTestA.data ++ ("{context}".data ++ segTestC.data) :=
    replaceAllL_of_not_contains (by decide)
  have sc : replaceAllL "{context}".data c.data
      (segTestA.data ++ ("{context}".data ++ segTestC.data)) = segTestA.data ++ (c.data ++ segTestC.data) := by
    have q1 : replaceAllL "{context}".data c.data
        (segTestA.data ++ ("{context}".data ++ segTestC.data)) =
        segTestA.data ++ (c.data ++ replaceAllL "{context}".data c.data segTestC.data) :=
      ra_fill_once rfl (by decide) (by decide)
    have q2 : replaceAllL "{context}".data c.data segTestC.data = segTestC.data :=
      replaceAllL_of_not_contains (by decide)
    rw [q1, q2]
  rw [h0, p0, p1, p2, p3, p4, p5, p6, sc]

theorem code_fill_review (e c : String)
    (he : ∀ tok ∈ placeholderTokens, containsL e.data tok.data = false) :
    (RuleEngine.fillTemplate (getTemplatesByIntent TaskIntent.review).head? e c).data =
      segReviewA.data ++ (c.data ++ segReviewC.data) := by
  have h0 : (RuleEngine.fillTemplate (getTemplatesByIntent TaskIntent.review).head? e c).data =
      replaceFirstL "{context}".data c.data
      (replaceFirstL "{scenario}".data e.data
      (replaceFirstL "{changes}".data e.data
      (replaceFirstL "{goal}".data e.data
      (replaceFirstL "{description}".data e.data
      (replaceFirstL "{feature}".data e.data
      (replaceFirstL "{error}".data e.data
      (replaceFirstL "{issue}".data e.data
      (segReviewA.data ++ ("{context}".data ++ segReviewC.data))))))))) := rfl
  have p0 : replaceFirstL "{issue}".data e.data
      (segReviewA.data ++ ("{context}".data ++ segReviewC.data)) = segReviewA.data ++ ("{context}".data ++ segReviewC.data) :=
    replaceFirstL_of_not_contains (by decide)
  have p1 : replaceFirstL "{error}".data e.data
      (segReviewA.data ++ ("{context}".data ++ segReviewC.data)) = segReviewA.data ++ ("{context}".data ++ segReviewC.data) :=
    replaceFirstL_of_not_contains (by decide)
  have p2 : replaceFirstL "{feature}".data e.data
      (segReviewA.data ++ ("{context}".data ++ segReviewC.data)) = segReviewA.data ++ ("{context}".data ++ segReviewC.data) :=
    replaceFirstL_of_not_contains (by decide)
  have p3 : replaceFirstL "{description}".data e.data
      (segReviewA.data ++ ("{context}".data ++ segReviewC.data)) = segReviewA.data ++ ("{context}".data ++ segReviewC.data) :=
    replaceFirstL_of_not_contains (by decide)
  have p4 : replaceFirstL "{goal}".data e.data
      (segReviewA.data ++ ("{context}".data ++ segReviewC.data)) = segReviewA.data ++ ("{context}".data ++ segReviewC.data) :=
    replaceFirstL_of_not_contains (by decide)
  have p5 : replaceFirstL "{changes}".data e.data
      (segReviewA.data ++ ("{context}".data ++ segReviewC.data)) = segReviewA.data ++ ("{context}".data ++ segReviewC.data) :=
    replaceFirstL_of_not_contains (by decide)
  have p6 : replaceFirstL "{scenario}".data e.data
      (segReviewA.data ++ ("{context}".data ++ segReviewC.data)) = segReviewA.data ++ ("{context}".data ++ segReviewC.data) :=
    replaceFirstL_of_not_contains (by decide)
  have sc : replaceFirstL "{context}".data c.data
      (segReviewA.data ++ ("{context}".data ++ segReviewC.data)) = segReviewA.data ++ (c.data ++ segReviewC.data) :=
    rf_fill_once rfl (by decide) (by decide)
  rw [h0, p0, p1, p2, p3, p4, p5, p6, sc]

theorem claim_fill_review (e c : String)
    (he : ∀ tok ∈ placeholderTokens, containsL e.data tok.data = false) :
    (claimFill (getTemplatesByIntent TaskIntent.review).head? e c).data =
      segReviewA.data ++ (c.data ++ segReviewC.data) := by
  have h0 : (claimFill (getTemplatesByIntent TaskIntent.review).head? e c).data =
      replaceAllL "{context}".data c.data
      (replaceAllL "{scenario}".data e.data
      (replaceAllL "{changes}".data e.data
      (replaceAllL "{goal}".data e.data
      (replaceAllL "{description}".data e.data
      (replaceAllL "{feature}".data e.data
      (replaceAllL "{error}".data e.data
      (replaceAllL "{issue}".data e.data
      (segReviewA.data ++ ("{context}".data ++ segReviewC.data))))))))) :=
    claimFill_data _ _ _ rfl (by decide) e c
  have p0 : replaceAllL "{issue}".data e.data
      (segReviewA.data ++ ("{context}".data ++ segReviewC.data)) = segReviewA.data ++ ("{context}".data ++ segReviewC.data) :=
    replaceAllL_of_not_contains (by decide)
  have p1 : replaceAllL "{error}".data e.data
      (segReviewA.data ++ ("{context}".data ++ segReviewC.data)) = segReviewA.data ++ ("{context}".data ++ segReviewC.data) :=
    replaceAllL_of_not_contains (by decide)
  have p2 : replaceAllL "{feature}".data e.data
      (segReviewA.data ++ ("{context}".data ++ segReviewC.data)) = segReviewA.data ++ ("{context}".data ++ segReviewC.data) :=
    replaceAllL_of_not_contains (by decide)
  have p3 : replaceAllL "{description}".data e.data
      (segReviewA.data ++ ("{context}".data ++ segReviewC.data)) = segReviewA.data ++ ("{context}".data ++ segReviewC.data) :=
    replaceAllL_of_not_contains (by decide)
  have p4 : replaceAllL "{goal}".data e.data
      (segReviewA.data ++ ("{context}".data ++ segReviewC.data)) = segReviewA.data ++ ("{context}".data ++ segReviewC.data) :=
    replaceAllL_of_not_contains (by decide)
  have p5 : replaceAllL "{changes}".data e.data
      (segReviewA.data ++ ("{context}".data ++ segReviewC.data)) = segReviewA.data ++ ("{context}".data ++ segReviewC.data) :=
    replaceAllL_of_not_contains (by decide)
  have p6 : replaceAllL "{scenario}".data e.data
      (segReviewA.data ++ ("{context}".data ++ segReviewC.data)) = segReviewA.data ++ ("{context}".data ++ segReviewC.data) :=
    replaceAllL_of_not_contains (by decide)
  have sc : replaceAllL "{context}".data c.data
      (segReviewA.data ++ ("{context}".data ++ segReviewC.data)) = segReviewA.data ++ (c.data ++ segReviewC.data) := by
    have q1 : replaceAllL "{context}".data c.data
        (segReviewA.data ++ ("{context}".data ++ segReviewC.data)) =
        segReviewA.data ++ (c.data ++ replaceAllL "{context}".data c.data segReviewC.data) :=
      ra_fill_once rfl (by decide) (by decide)
    have q2 : replaceAllL "{context}".data c.data segReviewC.data = segReviewC.data :=
      replaceAllL_of_not_contains (by decide)
    rw [q1, q2]
  rw [h0, p0, p1, p2, p3, p4, p5, p6, sc]

theorem code_fill_improve (e c : String)
    (he : ∀ tok ∈ placeholderTokens, containsL e.data tok.data = false) :
    (RuleEngine.fillTemplate (getTemplatesByIntent TaskIntent.improve).head? e c).data =
      segImproveA.data ++ (c.data ++ segImproveC.data) := by
  have h0 : (RuleEngine.fillTemplate (getTemplatesByIntent TaskIntent.improve).head? e c).data =
      replaceFirstL "{context}".data c.data
      (replaceFirstL "{scenario}".data e.data
      (replaceFirstL "{changes}".data e.data
      (replaceFirstL "{goal}".data e.data
      (replaceFirstL "{description}".data e.data
      (replaceFirstL "{feature}".data e.data
      (replaceFirstL "{error}".data e.data
      (replaceFirstL "{issue}".data e.data
      (segImproveA.data ++ ("{context}".data ++ segImproveC.data))))))))) := rfl
  have p0 : replaceFirstL "{issue}".data e.data
      (segImproveA.data ++ ("{context}".data ++ segImproveC.data)) = segImproveA.data ++ ("{context}".data ++ segImproveC.data) :=
    replaceFirstL_of_not_contains (by decide)
  have p1 : replaceFirstL "{error}".data e.data
      (segImproveA.data ++ ("{context}".data ++ segImproveC.data)) = segImproveA.data ++ ("{context}".data ++ segImproveC.data) :=
    replaceFirstL_of_not_contains (by decide)
  have p2 : replaceFirstL "{feature}".data e.data
      (segImproveA.data ++ ("{context}".data ++ segImproveC.data)) = segImproveA.data ++ ("{context}".data ++ segImproveC.data) :=
    replaceFirstL_of_not_contains (by decide)
  have p3 : replaceFirstL "{description}".data e.data
      (segImproveA.data ++ ("{context}".data ++ segImproveC.data)) = segImproveA.data ++ ("{context}".data ++ segImproveC.data) :=
    replaceFirstL_of_not_contains (by decide)
  have p4 : replaceFirstL "{goal}".data e.data
      (segImproveA.data ++ ("{context}".data ++ segImproveC.data)) = segImproveA.data ++ ("{context}".data ++ segImproveC.data) :=
    replaceFirstL_of_not_contains (by decide)
  have p5 : replaceFirstL "{changes}".data e.data
      (segImproveA.data ++ ("{context}".data ++ segImproveC.data)) = segImproveA.data ++ ("{context}".data ++ segImproveC.data) :=
    replaceFirstL_of_not_contains (by decide)
  have p6 : replaceFirstL "{scenario}".data e.data
      (segImproveA.data ++ ("{context}".data ++ segImproveC.data)) = segImproveA.data ++ ("{context}".data ++ segImproveC.data) :=
    replaceFirstL_of_not_contains (by decide)
  have sc : replaceFirstL "{context}".data c.data
      (segImproveA.data ++ ("{context}".data ++ segImproveC.data)) = segImproveA.data ++ (c.data ++ segImproveC.data) :=
    rf_fill_once rfl (by decide) (by decide)
  rw [h0, p0, p1, p2, p3, p4, p5, p6, sc]

theorem claim_fill_improve (e c : String)
    (he : ∀ tok ∈ placeholderTokens, containsL e.data tok.data = false) :
    (claimFill (getTemplatesByIntent TaskIntent.improve).head? e c).data =
      segImproveA.data ++ (c.data ++ segImproveC.data) := by
  have h0 : (claimFill (getTemplatesByIntent TaskIntent.improve).head? e c).data =
      replaceAllL "{context}".data c.data
      (replaceAllL "{scenario}".data e.data
      (replaceAllL "{changes}".data e.data
      (replaceAllL "{goal}".data e.data
      (replaceAllL "{description}".data e.data
      (replaceAllL "{feature}".data e.data
      (replaceAllL "{error}".data e.data
      (replaceAllL "{issue}".data e.data
      (segImproveA.data ++ ("{context}".data ++ segImproveC.data))))))))) :=
    claimFill_data _ _ _ rfl (by decide) e c
  have p0 : replaceAllL "{issue}".data e.data
      (segImproveA.data ++ ("{context}".data ++ segImproveC.data)) = segImproveA.data ++ ("{context}".data ++ segImproveC.data) :=
    replaceAllL_of_not_contains (by decide)
  have p1 : replaceAllL "{error}".data e.data
      (segImproveA.data ++ ("{context}".data ++ segImproveC.data)) = segImproveA.data ++ ("{context}".data ++ segImproveC.data) :=
    replaceAllL_of_not_contains (by decide)
  have p2 : replaceAllL "{feature}".data e.data
      (segImproveA.data ++ ("{context}".data ++ segImproveC.data)) = segImproveA.data ++ ("{context}".data ++ segImproveC.data) :=
    replaceAllL_of_not_contains (by decide)
  have p3 : replaceAllL "{description}".data e.data
      (segImproveA.data ++ ("{context}".data ++ segImproveC.data)) = segImproveA.data ++ ("{context}".data ++ segImproveC.data) :=
    replaceAllL_of_not_contains (by decide)
  have p4 : replaceAllL "{goal}".data e.data
      (segImproveA.data ++ ("{context}".data ++ segImproveC.data)) = segImproveA.data ++ ("{context}".data ++ segImproveC.data) :=
    replaceAllL_of_not_contains (by decide)
  have p5 : replaceAllL "{changes}".data e.data
      (segImproveA.data ++ ("{context}".data ++ segImproveC.data)) = segImproveA.data ++ ("{context}".data ++ segImproveC.data) :=
    replaceAllL_of_not_contains (by decide)
  have p6 : replaceAllL "{scenario}".data e.data
      (segImproveA.data ++ ("{context}".data ++ segImproveC.data)) = segImproveA.data ++ ("{context}".data ++ segImproveC.data) :=
    replaceAllL_of_not_contains (by decide)
  have sc : replaceAllL "{context}".data c.data
      (segImproveA.data ++ ("{context}".data ++ segImproveC.data)) = segImproveA.data ++ (c.data ++ segImproveC.data) := by
    have q1 : replaceAllL "{context}".data c.data
        (segImproveA.data ++ ("{context}".data ++ segImproveC.data)) =
        segImproveA.data ++ (c.data ++ replaceAllL "{context}".data c.data segImproveC.data) :=
      ra_fill_once rfl (by decide) (by decide)
    have q2 : replaceAllL "{context}".data c.data segImproveC.data = segImproveC.data :=
      replaceAllL_of_not_contains (by decide)
    rw [q1, q2]
  rw [h0, p0, p1, p2, p3, p4, p5, p6, sc]

theorem code_fill_document (e c : String)
    (he : ∀ tok ∈ placeholderTokens, containsL e.data tok.data = false) :
    (RuleEngine.fillTemplate (getTemplatesByIntent TaskIntent.document).head? e c).data =
      segDocumentA.data ++ (c.data ++ segDocumentC.data) := by
  have h0 : (RuleEngine.fillTemplate (getTemplatesByIntent TaskIntent.document).head? e c).data =
      replaceFirstL "{context}".data c.data
      (replaceFirstL "{scenario}".data e.data
      (replaceFirstL "{changes}".data e.data
      (replaceFirstL "{goal}".data e.data
      (replaceFirstL "{description}".data e.data
      (replaceFirstL "{feature}".data e.data
      (replaceFirstL "{error}".data e.data
      (replaceFirstL "{issue}".data e.data
      (segDocumentA.data ++ ("{context}".data ++ segDocumentC.data))))))))) := rfl
  have p0 : replaceFirstL "{issue}".data e.data
      (segDocumentA.data ++ ("{context}".data ++ segDocumentC.data)) = segDocumentA.data ++ ("{context}".data ++ segDocumentC.data) :=
    replaceFirstL_of_not_contains (by decide)
  have p1 : replaceFirstL "{error}".data e.data
      (segDocumentA.data ++ ("{context}".data ++ segDocumentC.data)) = segDocumentA.data ++ ("{context}".data ++ segDocumentC.data) :=
    replaceFirstL_of_not_contains (by decide)
  have p2 : replaceFirstL "{feature}".data e.data
      (segDocumentA.data ++ ("{context}".data ++ segDocumentC.data)) = segDocumentA.data ++ ("{context}".data ++ segDocumentC.data) :=
    replaceFirstL_of_not_contains (by decide)
  have p3 : replaceFirstL "{description}".data e.data
      (segDocumentA.data ++ ("{context}".data ++ segDocumentC.data)) = segDocumentA.data ++ ("{context}".data ++ segDocumentC.data) :=
    replaceFirstL_of_not_contains (by decide)
  have p4 : replaceFirstL "{goal}".data e.data
      (segDocumentA.data ++ ("{context}".data ++ segDocumentC.data)) = segDocumentA.data ++ ("{context}".data ++ segDocumentC.data) :=
    replaceFirstL_of_not_contains (by decide)
  have p5 : replaceFirstL "{changes}".data e.data
      (segDocumentA.data ++ ("{context}".data ++ segDocumentC.data)) = segDocumentA.data ++ ("{context}".data ++ segDocumentC.data) :=
    replaceFirstL_of_not_contains (by decide)
  have p6 : replaceFirstL "{scenario}".data e.data
      (segDocumentA.data ++ ("{context}".data ++ segDocumentC.data)) = segDocumentA.data ++ ("{context}".data ++ segDocumentC.data) :=
    replaceFirstL_of_not_contains (by decide)
  have sc : replaceFirstL "{context}".data c.data
      (segDocumentA.data ++ ("{context}".data ++ segDocumentC.data)) = segDocumentA.data ++ (c.data ++ segDocumentC.data) :=
    rf_fill_once rfl (by decide) (by decide)
  rw [h0, p0, p1, p2, p3, p4, p5, p6, sc]

theorem claim_fill_document (e c : String)
    (he : ∀ tok ∈ placeholderTokens, containsL e.data tok.data = false) :
    (claimFill (getTemplatesByIntent TaskIntent.document).head? e c).data =
      segDocumentA.data ++ (c.data ++ segDocumentC.data) := by
  have h0 : (claimFill (getTemplatesByIntent TaskIntent.document).head? e c).data =
      replaceAllL "{context}".data c.data
      (replaceAllL "{scenario}".data e.data
      (replaceAllL "{changes}".data e.data
      (replaceAllL "{goal}".data e.data
      (replaceAllL "{description}".data e.data
      (replaceAllL "{feature}".data e.data
      (replaceAllL "{error}".data e.data
      (replaceAllL "{issue}".data e.data
      (segDocumentA.data ++ ("{context}".data ++ segDocumentC.data))))))))) :=
    claimFill_data _ _ _ rfl (by decide) e c
  have p0 : replaceAllL "{issue}".data e.data
      (segDocumentA.data ++ ("{context}".data ++ segDocumentC.data)) = segDocumentA.data ++ ("{context}".data ++ segDocumentC.data) :=
    replaceAllL_of_not_contains (by decide)
  have p1 : replaceAllL "{error}".data e.data
      (segDocumentA.data ++ ("{context}".data ++ segDocumentC.data)) = segDocumentA.data ++ ("{context}".data ++ segDocumentC.data) :=
    replaceAllL_of_not_contains (by decide)
  have p2 : replaceAllL "{feature}".data e.data
      (segDocumentA.data ++ ("{context}".data ++ segDocumentC.data)) = segDocumentA.data ++ ("{context}".data ++ segDocumentC.data) :=
    replaceAllL_of_not_contains (by decide)
  have p3 : replaceAllL "{description}".data e.data
      (segDocumentA.data ++ ("{context}".data ++ segDocumentC.data)) = segDocumentA.data ++ ("{context}".data ++ segDocumentC.data) :=
    replaceAllL_of_not_contains (by decide)
  have p4 : replaceAllL "{goal}".data e.data
      (segDocumentA.data ++ ("{context}".data ++ segDocumentC.data)) = segDocumentA.data ++ ("{context}".data ++ segDocumentC.data) :=
    replaceAllL_of_not_contains (by decide)
  have p5 : replaceAllL "{changes}".data e.data
      (segDocumentA.data ++ ("{context}".data ++ segDocumentC.data)) = segDocumentA.data ++ ("{context}".data ++ segDocumentC.data) :=
    replaceAllL_of_not_contains (by decide)
  have p6 : replaceAllL "{scenario}".data e.data
      (segDocumentA.data ++ ("{context}".data ++ segDocumentC.data)) = segDocumentA.data ++ ("{context}".data ++ segDocumentC.data) :=
    replaceAllL_of_not_contains (by decide)
  have sc : replaceAllL "{context}".data c.data
      (segDocumentA.data ++ ("{context}".data ++ segDocumentC.data)) = segDocumentA.data ++ (c.data ++ segDocumentC.data) := by
    have q1 : replaceAllL "{context}".data c.data
        (segDocumentA.data ++ ("{context}".data ++ segDocumentC.data)) =
        segDocumentA.data ++ (c.data ++ replaceAllL "{context}".data c.data segDocumentC.data) :=
      ra_fill_once rfl (by decide) (by decide)
    have q2 : replaceAllL "{context}".data c.data segDocumentC.data = segDocumentC.data :=
      replaceAllL_of_not_contains (by decide)
    rw [q1, q2]
  rw [h0, p0, p1, p2, p3, p4, p5, p6, sc]


/-! ### Hint-suffix structure and the C5/C6 main theorems -/

/-- Elements of `dedupFirst.go` come from the scanned list. -/
theorem dedupFirst_go_subset {α : Type} [DecidableEq α] {x : α} :
    ∀ (seen l : List α), x ∈ dedupFirst.go seen l → x ∈ l := by
  intro seen l
  induction l generalizing seen with
  | nil => intro h; exact absurd h (List.not_mem_nil x)
  | cons y ys ih =>
    intro h
    rw [show dedupFirst.go seen (y :: ys) =
        if y ∈ seen then dedupFirst.go seen ys
        else y :: dedupFirst.go (y :: seen) ys from rfl] at h
    by_cases hy : y ∈ seen
    · rw [if_pos hy] at h
      exact List.mem_cons_of_mem _ (ih _ h)
    · rw [if_neg hy] at h
      rcases List.mem_cons.mp h with rfl | h2
      · exact List.mem_cons_self _ _
      · exact List.mem_cons_of_mem _ (ih _ h2)

/-- `dedupFirst` only keeps elements of its argument. -/
theorem dedupFirst_subset {α : Type} [DecidableEq α] {x : α} {l : List α}
    (h : x ∈ dedupFirst l) : x ∈ l :=
  dedupFirst_go_subset [] l h

/-- A character of a `joinSep` join lies in the separator or in a piece. -/
theorem joinSep_mem {c : Char} {sep : List Char} :
    ∀ {L : List (List Char)}, c ∈ joinSep sep L → c ∈ sep ∨ ∃ x ∈ L, c ∈ x := by
  intro L
  induction L with
  | nil => intro h; exact absurd h (List.not_mem_nil c)
  | cons x xs ih =>
    intro h
    cases xs with
    | nil => exact Or.inr ⟨x, List.mem_cons_self _ _, h⟩
    | cons y ys =>
      rw [show joinSep sep (x :: y :: ys) = x ++ sep ++ joinSep sep (y :: ys)
        from rfl] at h
      rcases List.mem_append.mp h with h1 | h2
      · rcases List.mem_append.mp h1 with ha | hb
        · exact Or.inr ⟨x, List.mem_cons_self _ _, ha⟩
        · exact Or.inl hb
      · rcases ih h2 with hs | ⟨z, hz, hcz⟩
        · exact Or.inl hs
        · exact Or.inr ⟨z, List.mem_cons_of_mem _ hz, hcz⟩

/-- `addTechnicalTerms` returns exactly the spec-side hint list. -/
theorem addTechnicalTerms_eq (input : String) :
    (RuleEngine.addTechnicalTerms input).2 = hintsSpec input := by
  unfold RuleEngine.addTechnicalTerms hintsSpec
  simp only
  rw [foldl_append_filter
    (fun m => m.keywords.any
      (fun kw => containsL (lowerL input.data) kw.data))
    (fun m => m.technicalTerms) TECHNICAL_ENHANCEMENTS []]
  rfl

/-- Every catalog hint term is brace-free. -/
theorem hintsSpec_brace_free (input : String) :
    ∀ t ∈ hintsSpec input, Char.ofNat 123 ∈ t.data → False := by
  intro t ht hbr
  have ht2 := dedupFirst_subset ht
  rw [List.mem_flatten] at ht2
  obtain ⟨l, hl, htl⟩ := ht2
  rw [List.mem_map] at hl
  obtain ⟨m, hm, rfl⟩ := hl
  have hmaster : ∀ m2 ∈ TECHNICAL_ENHANCEMENTS, ∀ t2 ∈ m2.technicalTerms,
      Char.ofNat 123 ∈ t2.data → False := by decide
  exact hmaster m (List.mem_of_mem_filter hm) t htl hbr

/-- The hint suffix is brace-free when all its terms are. -/
theorem hintSuffix_brace_free (terms : List String)
    (h : ∀ t ∈ terms, Char.ofNat 123 ∈ t.data → False) :
    Char.ofNat 123 ∈ (RuleEngine.hintSuffix terms).data → False := by
  intro hmem
  unfold RuleEngine.hintSuffix at hmem
  by_cases he : terms.isEmpty
  · rw [if_pos he] at hmem
    exact absurd hmem (by decide)
  · rw [if_neg he] at hmem
    have hmem2 : Char.ofNat 123 ∈ ("\n\n*Related concepts: ".data ++
        joinSep ", ".data (terms.map String.data)) ++ "*".data := hmem
    rcases List.mem_append.mp hmem2 with h1 | h1
    · rcases List.mem_append.mp h1 with h2 | h2
      · exact absurd h2 (by decide)
      · rcases joinSep_mem h2 with h3 | ⟨x, hx, hcx⟩
        · exact absurd h3 (by decide)
        · obtain ⟨s, hs, rfl⟩ := List.mem_map.mp hx
          exact h s hs hcx
    · exact absurd h1 (by decide)

/-- The hint suffix produced by `enhance` is brace-free. -/
theorem enhance_suffix_brace_free (input : String) :
    Char.ofNat 123 ∈
      (RuleEngine.hintSuffix (RuleEngine.addTechnicalTerms input).2).data → False := by
  rw [addTechnicalTerms_eq]
  exact hintSuffix_brace_free _ (hintsSpec_brace_free input)

/-- The hint suffix is empty or starts with a newline. -/
theorem hintSuffix_head (terms : List String) :
    (RuleEngine.hintSuffix terms).data = [] ∨
      (RuleEngine.hintSuffix terms).data.head? = some (Char.ofNat 10) := by
  by_cases he : terms.isEmpty
  · left
    unfold RuleEngine.hintSuffix
    rw [if_pos he]
  · right
    unfold RuleEngine.hintSuffix
    rw [if_neg he]
    rfl

/-- A token-free main text stays token-free after appending a brace-free
suffix that is empty or newline-headed. -/
theorem containsL_append_suffix {tok main suf : List Char}
    (hhd : tok.head? = some (Char.ofNat 123))
    (hnl : Char.ofNat 10 ∈ tok → False)
    (hmain : containsL main tok = false)
    (hsufbr : Char.ofNat 123 ∈ suf → False)
    (hsufhd : suf = [] ∨ suf.head? = some (Char.ofNat 10)) :
    containsL (main ++ suf) tok = false := by
  rcases hsufhd with rfl | hshd
  · rw [List.append_nil]
    exact hmain
  · by_contra h
    rw [Bool.not_eq_false] at h
    rcases containsL_append_cases h with h1 | h1 | ⟨t₁, t₂, hsp, hn1, hn2, hsfx, hpre⟩
    · rw [hmain] at h1
      exact Bool.false_ne_true h1
    · rw [not_containsL_of_brace_free hhd hsufbr] at h1
      exact Bool.false_ne_true h1
    · exact hnl (cross_right_head hn2 ⟨t₁, hsp.symm⟩ hpre hshd)

/-- Extract the per-token freedom facts from `tokenFree`. -/
theorem tokenFree_forall {s : String} (h : tokenFree s = true) :
    ∀ tok ∈ placeholderTokens, containsL s.data tok.data = false := by
  intro tok htok
  rw [tokenFree, List.all_eq_true] at h
  simpa using h tok htok

/-- C5: `RuleEngine.enhance` picks the first catalog template of the
request intent and substitutes the placeholders as the spec describes,
with `wasAiEnhanced = false` — provided the enhanced description itself
contains no placeholder token (the source substitutes each placeholder
only once, so a token injected by the user survives substitution). -/
theorem template_fill_corrected (req : PromptRequest)
    (he : tokenFree
      (RuleEngine.improveStructure (RuleEngine.expandWords req.userInput)) = true) :
    (RuleEngine.enhance req).prompt =
      claimFill ((PROMPT_TEMPLATES.filter (fun t => t.intent == req.intent)).head?)
        (RuleEngine.improveStructure (RuleEngine.expandWords req.userInput))
        (RuleEngine.formatContext req) ++
      RuleEngine.hintSuffix (RuleEngine.addTechnicalTerms req.userInput).2 ∧
    (RuleEngine.enhance req).wasAiEnhanced = false := by
  obtain ⟨intent, ui, ctx, inc⟩ := req
  have he2 : ∀ tok ∈ placeholderTokens,
      containsL (RuleEngine.improveStructure (RuleEngine.expandWords ui)).data
        tok.data = false := tokenFree_forall he
  refine ⟨?_, rfl⟩
  have hd : (RuleEngine.fillTemplate (getTemplatesByIntent intent).head?
        (RuleEngine.improveStructure (RuleEngine.expandWords ui))
        (RuleEngine.formatContext ⟨intent, ui, ctx, inc⟩)).data =
      (claimFill (getTemplatesByIntent intent).head?
        (RuleEngine.improveStructure (RuleEngine.expandWords ui))
        (RuleEngine.formatContext ⟨intent, ui, ctx, inc⟩)).data := by
    cases intent
    · rw [code_fill_fix _ _ he2, claim_fill_fix _ _ he2]
    · rw [code_fill_add _ _ he2, claim_fill_add _ _ he2]
    · rw [code_fill_change _ _ he2, claim_fill_change _ _ he2]
    · rw [code_fill_explain _ _ he2, claim_fill_explain _ _ he2]
    · rw [code_fill_test _ _ he2, claim_fill_test _ _ he2]
    · rw [code_fill_review _ _ he2, claim_fill_review _ _ he2]
    · rw [code_fill_improve _ _ he2, claim_fill_improve _ _ he2]
    · rw [code_fill_document _ _ he2, claim_fill_document _ _ he2]
  show (⟨(RuleEngine.fillTemplate (getTemplatesByIntent intent).head?
        (RuleEngine.improveStructure (RuleEngine.expandWords ui))
        (RuleEngine.formatContext ⟨intent, ui, ctx, inc⟩)).data ++
      (RuleEngine.hintSuffix (RuleEngine.addTechnicalTerms ui).2).data⟩ : String) =
    ⟨(claimFill (getTemplatesByIntent intent).head?
        (RuleEngine.improveStructure (RuleEngine.expandWords ui))
        (RuleEngine.formatContext ⟨intent, ui, ctx, inc⟩)).data ++
      (RuleEngine.hintSuffix (RuleEngine.addTechnicalTerms ui).2).data⟩
  rw [hd]

/-- C5 refutation of the unconditional claim: a user description that is
itself the literal token `{context}` is substituted into the template by
the first replacement, and the later single-occurrence `{context}`
replacement consumes it instead of the template's own `{context}`,
leaving a literal token — unlike the spec's substitute-every-placeholder
reading. -/
theorem template_fill_counterexample :
    ¬ ((RuleEngine.enhance ⟨TaskIntent.fix, "{context}", emptyContext, noFlags⟩).prompt =
      claimFill ((PROMPT_TEMPLATES.filter
          (fun t => t.intent == TaskIntent.fix)).head?)
        (RuleEngine.improveStructure (RuleEngine.expandWords "{context}"))
        (RuleEngine.formatContext
          ⟨TaskIntent.fix, "{context}", emptyContext, noFlags⟩) ++
      RuleEngine.hintSuffix (RuleEngine.addTechnicalTerms "{context}").2) := by
  decide

/-- Witness for `template_fill_corrected` at a concrete request. -/
theorem template_fill_corrected_witness :
    tokenFree (RuleEngine.improveStructure (RuleEngine.expandWords "x")) = true ∧
    ((RuleEngine.enhance ⟨TaskIntent.explain, "x", emptyContext, noFlags⟩).prompt =
      claimFill ((PROMPT_TEMPLATES.filter
          (fun t => t.intent == TaskIntent.explain)).head?)
        (RuleEngine.improveStructure (RuleEngine.expandWords "x"))
        (RuleEngine.formatContext ⟨TaskIntent.explain, "x", emptyContext, noFlags⟩) ++
      RuleEngine.hintSuffix (RuleEngine.addTechnicalTerms "x").2 ∧
      (RuleEngine.enhance
        ⟨TaskIntent.explain, "x", emptyContext, noFlags⟩).wasAiEnhanced = false) :=
  ⟨by decide,
    template_fill_corrected ⟨TaskIntent.explain, "x", emptyContext, noFlags⟩ (by decide)⟩

/-- C6: the final prompt of `RuleEngine.enhance` contains no literal
placeholder token, provided the enhanced description and the rendered
context block are themselves token-free (the user can inject tokens
through either, and the source then leaves a literal token behind). -/
theorem no_placeholder_corrected (req : PromptRequest)
    (he : tokenFree
      (RuleEngine.improveStructure (RuleEngine.expandWords req.userInput)) = true)
    (hc : tokenFree (RuleEngine.formatContext req) = true) :
    tokenFree (RuleEngine.enhance req).prompt = true := by
  obtain ⟨intent, ui, ctx, inc⟩ := req
  have he2 : ∀ tok ∈ placeholderTokens,
      containsL (RuleEngine.improveStructure (RuleEngine.expandWords ui)).data
        tok.data = false := tokenFree_forall he
  have hc2 : ∀ tok ∈ placeholderTokens,
      containsL (RuleEngine.formatContext ⟨intent, ui, ctx, inc⟩).data
        tok.data = false := tokenFree_forall hc
  suffices hall : ∀ tok ∈ placeholderTokens,
      containsL (RuleEngine.enhance ⟨intent, ui, ctx, inc⟩).prompt.data
        tok.data = false by
    show placeholderTokens.all (fun tok =>
      !containsL (RuleEngine.enhance ⟨intent, ui, ctx, inc⟩).prompt.data
        tok.data) = true
    rw [List.all_eq_true]
    intro tok htok
    rw [hall tok htok]
    rfl
  intro tok htok
  have hhd : tok.data.head? = some (Char.ofNat 123) := by
    fin_cases htok <;> rfl
  have hnl : Char.ofNat 10 ∈ tok.data → False := by
    fin_cases htok <;> decide
  have hsplit : (RuleEngine.enhance ⟨intent, ui, ctx, inc⟩).prompt.data =
      (RuleEngine.fillTemplate (getTemplatesByIntent intent).head?
        (RuleEngine.improveStructure (RuleEngine.expandWords ui))
        (RuleEngine.formatContext ⟨intent, ui, ctx, inc⟩)).data ++
      (RuleEngine.hintSuffix (RuleEngine.addTechnicalTerms ui).2).data := rfl
  rw [hsplit]
  refine containsL_append_suffix hhd hnl ?_ (enhance_suffix_brace_free ui)
    (hintSuffix_head _)
  cases intent
  · rw [code_fill_fix _ _ he2]
    exact notContains_five hhd hnl (by decide) (by decide) (by decide) rfl rfl
      (he2 tok htok) (hc2 tok htok)
  · rw [code_fill_add _ _ he2]
    exact notContains_five hhd hnl (by decide) (by decide) (by decide) rfl rfl
      (he2 tok htok) (hc2 tok htok)
  · rw [code_fill_change _ _ he2]
    exact notContains_five hhd hnl (by decide) (by decide) (by decide) rfl rfl
      (he2 tok htok) (hc2 tok htok)
  · rw [code_fill_explain _ _ he2]
    exact notContains_three hhd hnl (by decide) (by decide) rfl (hc2 tok htok)
  · rw [code_fill_test _ _ he2]
    exact notContains_three hhd hnl (by decide) (by decide) rfl (hc2 tok htok)
  · rw [code_fill_review _ _ he2]
    exact notContains_three hhd hnl (by decide) (by decide) rfl (hc2 tok htok)
  · rw [code_fill_improve _ _ he2]
    exact notContains_three hhd hnl (by decide) (by decide) rfl (hc2 tok htok)
  · rw [code_fill_document _ _ he2]
    exact notContains_three hhd hnl (by decide) (by decide) rfl (hc2 tok htok)

/-- C6 refutation of the unconditional claim: a user description that is
the literal token `{issue}` is substituted into the `fix-bug` template
and survives to the final prompt. -/
theorem no_placeholder_counterexample :
    containsL (RuleEngine.enhance
        ⟨TaskIntent.fix, "{issue}", emptyContext, noFlags⟩).prompt.data
      "{issue}".data = true := by
  decide

/-- Witness for `no_placeholder_corrected` at a concrete request. -/
theorem no_placeholder_corrected_witness :
    (tokenFree (RuleEngine.improveStructure (RuleEngine.expandWords "y")) = true ∧
     tokenFree (RuleEngine.formatContext
       ⟨TaskIntent.fix, "y", emptyContext, noFlags⟩) = true) ∧
    tokenFree (RuleEngine.enhance
      ⟨TaskIntent.fix, "y", emptyContext, noFlags⟩).prompt = true :=
  ⟨⟨by decide, by decide⟩,
    no_placeholder_corrected ⟨TaskIntent.fix, "y", emptyContext, noFlags⟩
      (by decide) (by decide)⟩

end BetterPrompts

